import Mathlib

/-!
Verification of the ARTIQ device-database template generator
(`artiq/frontend/artiq_ddb_template.py`).

The development shallowly embeds the channel-allocation and device-expansion
engine: peripheral declarations are a closed inductive type, registry entries
are structured values (instead of printed text), the name allocator is a
`String → Nat` counter map threaded through every expansion, and the
orchestrator `process` mirrors the source's control flow, returning the list
of emitted output items together with an optional fatal error.

A second, spec-side layer (`DevName`, `render`, `decode`) gives every
generated device name a structured form and an executable inverse of the
rendering function, which is what makes the global name-uniqueness theorem
provable for arbitrary runs.
-/

namespace Ddb

/-! ### Decimal rendering of naturals (the `"{}{}".format` part of `get_name`) -/

/-- Character for a single decimal digit. -/
def digitChar (n : Nat) : Char := Char.ofNat (48 + n)

/-- Fuel-driven decimal digit expansion (most significant digit first). -/
def natDigitsAux : Nat → Nat → List Char
  | 0, _ => []
  | fuel + 1, n =>
    if n < 10 then [digitChar n]
    else natDigitsAux fuel (n / 10) ++ [digitChar (n % 10)]

/-- Decimal digits of `n`, most significant first. -/
def natDigits (n : Nat) : List Char := natDigitsAux (n + 1) n

/-- Decimal string of `n`, as Python's `"{}".format(n)` renders it. -/
def natStr (n : Nat) : String := String.mk (natDigits n)

/-- Is `c` a decimal digit? -/
def isDig (c : Char) : Bool := 48 ≤ c.toNat && c.toNat ≤ 57

/-- Numeric value of a digit string (most significant first). -/
def valOfDigits (l : List Char) : Nat := l.foldl (fun a c => a * 10 + (c.toNat - 48)) 0

/-! ### Parsing primitives for generated device names -/

/-- Strip an expected character-list prefix, returning the remainder. -/
def stripPre : List Char → List Char → Option (List Char)
  | [], s => some s
  | _ :: _, [] => none
  | p :: ps, c :: cs => if p = c then stripPre ps cs else none

/-- Parse a nonempty maximal run of decimal digits at the front of `s`. -/
def parseNat (s : List Char) : Option (Nat × List Char) :=
  let ds := s.takeWhile isDig
  if ds.isEmpty then none else some (valOfDigits ds, s.dropWhile isDig)

/-! ### Structured device names

Every name generated by the template engine has the shape
`pre ++ typePrefix ++ decimalCounter ++ suffix`, where `typePrefix` is
one of the twelve strings ever passed to `get_name`, the counter comes from
the shared per-prefix allocator, and `pre`/`suffix` are the fixed decorations
from the `.format` templates of the individual `process_*` methods. -/

/-- The twelve type prefixes that are passed to `get_name` in the source. -/
inductive Pfx
  | ttl | ttlCounter | urukul | mirny | novogorny | sampler
  | suservo | zotino | grabber | fastino | phaser | led
  deriving DecidableEq

/-- Characters of a type prefix. -/
def Pfx.chars : Pfx → List Char
  | .ttl => ['t', 't', 'l']
  | .ttlCounter => ['t', 't', 'l', '_', 'c', 'o', 'u', 'n', 't', 'e', 'r']
  | .urukul => ['u', 'r', 'u', 'k', 'u', 'l']
  | .mirny => ['m', 'i', 'r', 'n', 'y']
  | .novogorny => ['n', 'o', 'v', 'o', 'g', 'o', 'r', 'n', 'y']
  | .sampler => ['s', 'a', 'm', 'p', 'l', 'e', 'r']
  | .suservo => ['s', 'u', 's', 'e', 'r', 'v', 'o']
  | .zotino => ['z', 'o', 't', 'i', 'n', 'o']
  | .grabber => ['g', 'r', 'a', 'b', 'b', 'e', 'r']
  | .fastino => ['f', 'a', 's', 't', 'i', 'n', 'o']
  | .phaser => ['p', 'h', 'a', 's', 'e', 'r']
  | .led => ['l', 'e', 'd']

/-- String form of a type prefix (the argument given to `get_name`). -/
def Pfx.str : Pfx → String
  | .ttl => "ttl"
  | .ttlCounter => "ttl_counter"
  | .urukul => "urukul"
  | .mirny => "mirny"
  | .novogorny => "novogorny"
  | .sampler => "sampler"
  | .suservo => "suservo"
  | .zotino => "zotino"
  | .grabber => "grabber"
  | .fastino => "fastino"
  | .phaser => "phaser"
  | .led => "led"

/-- Front decorations prepended to an allocated base name. -/
inductive Pre
  | bare | eeprom | spi | ttl
  deriving DecidableEq

/-- Characters of a front decoration. -/
def Pre.chars : Pre → List Char
  | .bare => []
  | .eeprom => ['e', 'e', 'p', 'r', 'o', 'm', '_']
  | .spi => ['s', 'p', 'i', '_']
  | .ttl => ['t', 't', 'l', '_']

/-- Trailing decorations appended to an allocated base name. -/
inductive Suf
  | bare | adc | pgia | sync | ioUpdate | sw (i : Nat) | cnv | ldac | clr
  | cpld | ch (i : Nat) | dds
  deriving DecidableEq

/-- Characters of a trailing decoration. -/
def Suf.chars : Suf → List Char
  | .bare => []
  | .adc => ['_', 'a', 'd', 'c']
  | .pgia => ['_', 'p', 'g', 'i', 'a']
  | .sync => ['_', 's', 'y', 'n', 'c']
  | .ioUpdate => ['_', 'i', 'o', '_', 'u', 'p', 'd', 'a', 't', 'e']
  | .sw i => ['_', 's', 'w'] ++ natDigits i
  | .cnv => ['_', 'c', 'n', 'v']
  | .ldac => ['_', 'l', 'd', 'a', 'c']
  | .clr => ['_', 'c', 'l', 'r']
  | .cpld => ['_', 'c', 'p', 'l', 'd']
  | .ch i => ['_', 'c', 'h'] ++ natDigits i
  | .dds => ['_', 'd', 'd', 's']

/-- Structured form of a generated device name. -/
structure DevName where
  pre : Pre
  pfx : Pfx
  idx : Nat
  suf : Suf
  deriving DecidableEq

/-- Characters of a rendered device name. -/
def renderL (d : DevName) : List Char :=
  d.pre.chars ++ (d.pfx.chars ++ (natDigits d.idx ++ d.suf.chars))

/-- Rendered device name, exactly as the `.format` templates emit it. -/
def render (d : DevName) : String := String.mk (renderL d)

/-- Attempt to read back a type prefix and its counter from the front of `s`. -/
def tryPfx (p : Pfx) (s : List Char) : Option (Pfx × Nat × List Char) := do
  let r ← stripPre p.chars s
  let (n, rest) ← parseNat r
  some (p, n, rest)

/-- Parse an allocated base name (`typePrefix ++ counter`) from the front of `s`.
`ttl_counter` is tried before `ttl` so the longer prefix wins. -/
def parseBase (s : List Char) : Option (Pfx × Nat × List Char) :=
  tryPfx .ttlCounter s <|> tryPfx .ttl s <|> tryPfx .urukul s <|> tryPfx .mirny s <|>
  tryPfx .novogorny s <|> tryPfx .sampler s <|> tryPfx .suservo s <|> tryPfx .zotino s <|>
  tryPfx .grabber s <|> tryPfx .fastino s <|> tryPfx .phaser s <|> tryPfx .led s

/-- Parse a trailing decoration, which must consume the whole remainder. -/
def parseSuf (s : List Char) : Option Suf :=
  if s = [] then some .bare
  else if s = ['_', 'a', 'd', 'c'] then some .adc
  else if s = ['_', 'p', 'g', 'i', 'a'] then some .pgia
  else if s = ['_', 's', 'y', 'n', 'c'] then some .sync
  else if s = ['_', 'i', 'o', '_', 'u', 'p', 'd', 'a', 't', 'e'] then some .ioUpdate
  else if s = ['_', 'c', 'n', 'v'] then some .cnv
  else if s = ['_', 'l', 'd', 'a', 'c'] then some .ldac
  else if s = ['_', 'c', 'l', 'r'] then some .clr
  else if s = ['_', 'c', 'p', 'l', 'd'] then some .cpld
  else if s = ['_', 'd', 'd', 's'] then some .dds
  else
    match stripPre ['_', 's', 'w'] s with
    | some r =>
      match parseNat r with
      | some (i, []) => some (.sw i)
      | _ => none
    | none =>
      match stripPre ['_', 'c', 'h'] s with
      | some r =>
        match parseNat r with
        | some (i, []) => some (.ch i)
        | _ => none
      | none => none

/-- The first character of `s`, if any, is not a decimal digit. -/
def headNotDig (s : List Char) : Prop := ∀ c, s.head? = some c → isDig c = false

/-- Decode a device name assuming a given front decoration. -/
def decodeWith (pre : Pre) (s : List Char) : Option DevName := do
  let r ← stripPre pre.chars s
  let (p, n, rest) ← parseBase r
  let suf ← parseSuf rest
  some ⟨pre, p, n, suf⟩

/-- Executable inverse of `renderL`: front decorations are tried from the
most specific to the empty one. -/
def decode (s : List Char) : Option DevName :=
  decodeWith .eeprom s <|> decodeWith .spi s <|> decodeWith .ttl s <|> decodeWith .bare s

/-! ### Registry entries and output items

A `RegistryEntry` of the spec: the source prints a `device_db[name] = {...}`
statement; here the same information is kept structurally.  Constructor
arguments are tagged so that RTIO addresses (`chan`) and by-name references
to other entries (`dev`, `devs`, `store`) are distinguishable from plain
numeric or string arguments. -/

/-- A constructor argument of a registry entry. -/
inductive Arg
  | str (s : String)
  | nat (n : Nat)
  | rat (q : ℚ)
  | chan (c : Nat)
  | dev (name : String)
  | devs (names : List String)
  | store (name : String) (off : Nat)
  | pynone
  deriving DecidableEq

/-- One generated registry entry. -/
structure Entry where
  name : String
  ty : String
  module : String
  className : String
  args : List (String × Arg)
  deriving DecidableEq

/-- RTIO addresses referenced by an entry's constructor arguments. -/
def Entry.channels (e : Entry) : List Nat :=
  e.args.filterMap (fun a =>
    match a.2 with
    | Arg.chan n => some n
    | _ => none)

/-- Names of other entries referenced by an entry's constructor arguments. -/
def Entry.refs (e : Entry) : List String :=
  e.args.foldr (fun a acc =>
    (match a.2 with
     | Arg.dev s => [s]
     | Arg.devs l => l
     | Arg.store s _ => [s]
     | _ => []) ++ acc) []

/-- One item of the textual output stream. -/
inductive Item
  | header (es : List Entry)
  | comment (s : String)
  | entry (e : Entry)
  deriving DecidableEq

/-- Registry entries carried by an output item. -/
def Item.itemEntries : Item → List Entry
  | .header es => es
  | .comment _ => []
  | .entry e => [e]

/-- All registry entries of an output stream. -/
def outEntries (items : List Item) : List Entry :=
  items.foldr (fun it acc => it.itemEntries ++ acc) []

/-- All registry-entry names of an output stream. -/
def outNames (items : List Item) : List String := (outEntries items).map Entry.name

/-! ### The name allocator (`PeripheralManager.counts` / `get_name`) -/

/-- The allocator state: `defaultdict(int)` keyed by type prefix. -/
def Counts := String → Nat

/-- Initial allocator state: every counter is 0. -/
def counts0 : Counts := fun _ => 0

/-- Increment the stored counter for `ty`. -/
def bump (c : Counts) (ty : String) : Counts :=
  fun t => if t = ty then c ty + 1 else c t

/-- `get_name`: returns `"{ty}{count}"` and increments the counter. -/
def getName (c : Counts) (ty : String) : String × Counts :=
  (ty ++ natStr (c ty), bump c ty)

/-! ### Input data model (the parsed JSON descriptions) -/

/-- Direction of one half of a DIO bank. -/
inductive BankDir
  | input | output
  deriving DecidableEq

/-- TTL driver class for a bank direction (`class_names` in `process_dio`). -/
def dioClassName : BankDir → String
  | .input => "TTLInOut"
  | .output => "TTLOut"

/-- DDS chip family of an Urukul card. -/
inductive Dds
  | ad9910 | ad9912
  deriving DecidableEq

/-- One peripheral declaration, a discriminated variant keyed by its type
tag, carrying exactly the fields the corresponding `process_*` method reads. -/
inductive Peripheral
  | dio (bank_direction_low bank_direction_high : BankDir) (edge_counter : Bool)
  | urukul (ports : List Nat) (synchronization : Bool) (refclk : Option ℚ)
      (clk_sel : Nat) (dds : Dds) (pll_vco : Option Nat) (pll_n : Option Nat)
  | mirny (refclk : ℚ) (clk_sel : Nat)
  | novogorny
  | sampler
  | suservo (refclk : Option ℚ) (clk_sel : Nat) (pll_vco : Option Nat) (pll_n : Nat)
  | zotino
  | grabber
  | fastino
  | phaser
  deriving DecidableEq

/-- One node description (the fields of the master/satellite JSON documents
that the generator reads). -/
structure NodeDesc where
  target : String
  variant : String
  core_addr : String
  rtio_frequency : ℚ
  base : String
  hw_rev : String
  peripherals : List Peripheral
  deriving DecidableEq

/-! ### Peripheral expanders (the `process_*` methods)

Each expander takes the allocator state, the master description (used for
the `rtio_frequency` default), the current RTIO offset and the declaration's
fields, and returns the emitted entries, the number of channels consumed
(the method's return value), and the new allocator state. -/

/-- `process_dio`: eight TTL channels, plus, when `edge_counter` is set, one
edge-counter entry per `TTLInOut` channel, each consuming a further channel. -/
def process_dio (c : Counts) (off : Nat) (lo hi : BankDir) (edge : Bool) :
    List Entry × Nat × Counts :=
  let classes := [dioClassName lo, dioClassName hi]
  let r := (List.range 8).foldl
    (fun acc i =>
      let (nm, c') := getName acc.2.2 "ttl"
      (acc.1 ++ [{ name := nm, ty := "local", module := "artiq.coredevice.ttl",
                   className := classes.getD (i / 4) "",
                   args := [("channel", Arg.chan (off + acc.2.1))] }],
       acc.2.1 + 1, c'))
    ([], 0, c)
  if edge then
    (List.range 8).foldl
      (fun acc i =>
        if classes.getD (i / 4) "" = "TTLInOut" then
          let (nm, c') := getName acc.2.2 "ttl_counter"
          (acc.1 ++ [{ name := nm, ty := "local",
                       module := "artiq.coredevice.edge_counter",
                       className := "EdgeCounter",
                       args := [("channel", Arg.chan (off + acc.2.1))] }],
           acc.2.1 + 1, c')
        else acc)
      r
  else r

/-- `process_urukul`: EEPROM and SPI entries, an optional sync clock
generator, the `io_update` strobe, four optional switch TTLs (only when more
than one EEM port is declared), the CPLD controller, and four DDS channels. -/
def process_urukul (c : Counts) (md : NodeDesc) (off : Nat) (ports : List Nat)
    (sync : Bool) (refclk : Option ℚ) (clk_sel : Nat) (dds : Dds)
    (pll_vco : Option Nat) (pll_n : Option Nat) : List Entry × Nat × Counts :=
  let (urukul_name, c) := getName c "urukul"
  let eeprom : Entry :=
    { name := "eeprom_" ++ urukul_name, ty := "local",
      module := "artiq.coredevice.kasli_i2c", className := "KasliEEPROM",
      args := [("port", Arg.str ("EEM" ++ natStr (ports.headD 0)))] }
  let spi : Entry :=
    { name := "spi_" ++ urukul_name, ty := "local",
      module := "artiq.coredevice.spi2", className := "SPIMaster",
      args := [("channel", Arg.chan (off + 0))] }
  let k := 1
  let syncPart : List Entry × Nat :=
    if sync then
      ([{ name := "ttl_" ++ urukul_name ++ "_sync", ty := "local",
          module := "artiq.coredevice.ttl", className := "TTLClockGen",
          args := [("channel", Arg.chan (off + k)), ("acc_width", Arg.nat 4)] }], k + 1)
    else ([], k)
  let k := syncPart.2
  let ioUpd : Entry :=
    { name := "ttl_" ++ urukul_name ++ "_io_update", ty := "local",
      module := "artiq.coredevice.ttl", className := "TTLOut",
      args := [("channel", Arg.chan (off + k))] }
  let k := k + 1
  let swPart : List Entry × Nat :=
    if ports.length > 1 then
      ((List.range 4).map (fun i =>
        { name := "ttl_" ++ urukul_name ++ "_sw" ++ natStr i, ty := "local",
          module := "artiq.coredevice.ttl", className := "TTLOut",
          args := [("channel", Arg.chan (off + k + i))] }), k + 4)
    else ([], k)
  let k := swPart.2
  let cpld : Entry :=
    { name := urukul_name ++ "_cpld", ty := "local",
      module := "artiq.coredevice.urukul", className := "CPLD",
      args := [("spi_device", Arg.dev ("spi_" ++ urukul_name)),
               ("sync_device",
                 if sync then Arg.dev ("ttl_" ++ urukul_name ++ "_sync") else Arg.pynone),
               ("io_update_device", Arg.dev ("ttl_" ++ urukul_name ++ "_io_update")),
               ("refclk", Arg.rat (refclk.getD md.rtio_frequency)),
               ("clk_sel", Arg.nat clk_sel)] }
  let chs : List Entry := (List.range 4).map (fun i =>
    match dds with
    | Dds.ad9910 =>
      { name := urukul_name ++ "_ch" ++ natStr i, ty := "local",
        module := "artiq.coredevice.ad9910", className := "AD9910",
        args := [("pll_n", Arg.nat (pll_n.getD 32)),
                 ("chip_select", Arg.nat (4 + i)),
                 ("cpld_device", Arg.dev (urukul_name ++ "_cpld"))]
          ++ (if ports.length > 1 then
                [("sw_device", Arg.dev ("ttl_" ++ urukul_name ++ "_sw" ++ natStr i))]
              else [])
          ++ (match pll_vco with
              | some v => [("pll_vco", Arg.nat v)]
              | none => [])
          ++ (if sync then
                [("sync_delay_seed", Arg.store ("eeprom_" ++ urukul_name) (64 + 4 * i)),
                 ("io_update_delay", Arg.store ("eeprom_" ++ urukul_name) (64 + 4 * i))]
              else []) }
    | Dds.ad9912 =>
      { name := urukul_name ++ "_ch" ++ natStr i, ty := "local",
        module := "artiq.coredevice.ad9912", className := "AD9912",
        args := [("pll_n", Arg.nat (pll_n.getD 8)),
                 ("chip_select", Arg.nat (4 + i)),
                 ("cpld_device", Arg.dev (urukul_name ++ "_cpld"))]
          ++ (if ports.length > 1 then
                [("sw_device", Arg.dev ("ttl_" ++ urukul_name ++ "_sw" ++ natStr i))]
              else [])
          ++ (match pll_vco with
              | some v => [("pll_vco", Arg.nat v)]
              | none => []) })
  ([eeprom, spi] ++ syncPart.1 ++ [ioUpd] ++ swPart.1 ++ [cpld] ++ chs, k, c)

/-- `process_mirny`: SPI entry, four switch TTLs, four ADF5356 channels
(no RTIO channel of their own), and the Mirny CPLD controller. -/
def process_mirny (c : Counts) (off : Nat) (refclk : ℚ) (clk_sel : Nat) :
    List Entry × Nat × Counts :=
  let (mirny_name, c) := getName c "mirny"
  let spi : Entry :=
    { name := "spi_" ++ mirny_name, ty := "local",
      module := "artiq.coredevice.spi2", className := "SPIMaster",
      args := [("channel", Arg.chan (off + 0))] }
  let sws : List Entry := (List.range 4).map (fun i =>
    { name := "ttl_" ++ mirny_name ++ "_sw" ++ natStr i, ty := "local",
      module := "artiq.coredevice.ttl", className := "TTLOut",
      args := [("channel", Arg.chan (off + 1 + i))] })
  let chs : List Entry := (List.range 4).map (fun i =>
    { name := mirny_name ++ "_ch" ++ natStr i, ty := "local",
      module := "artiq.coredevice.adf5356", className := "ADF5356",
      args := [("channel", Arg.nat i),
               ("sw_device", Arg.dev ("ttl_" ++ mirny_name ++ "_sw" ++ natStr i)),
               ("cpld_device", Arg.dev (mirny_name ++ "_cpld"))] })
  let cpld : Entry :=
    { name := mirny_name ++ "_cpld", ty := "local",
      module := "artiq.coredevice.mirny", className := "Mirny",
      args := [("spi_device", Arg.dev ("spi_" ++ mirny_name)),
               ("refclk", Arg.rat refclk),
               ("clk_sel", Arg.nat clk_sel)] }
  (spi :: sws ++ chs ++ [cpld], 5, c)

/-- `process_novogorny`: ADC SPI, CNV TTL, and the Novogorny entry. -/
def process_novogorny (c : Counts) (off : Nat) : List Entry × Nat × Counts :=
  let (name, c) := getName c "novogorny"
  ([{ name := "spi_" ++ name ++ "_adc", ty := "local",
      module := "artiq.coredevice.spi2", className := "SPIMaster",
      args := [("channel", Arg.chan off)] },
    { name := "ttl_" ++ name ++ "_cnv", ty := "local",
      module := "artiq.coredevice.ttl", className := "TTLOut",
      args := [("channel", Arg.chan (off + 1))] },
    { name := name, ty := "local",
      module := "artiq.coredevice.novogorny", className := "Novogorny",
      args := [("spi_adc_device", Arg.dev ("spi_" ++ name ++ "_adc")),
               ("cnv_device", Arg.dev ("ttl_" ++ name ++ "_cnv"))] }], 2, c)

/-- `process_sampler`: ADC SPI, PGIA SPI, CNV TTL, and the Sampler entry. -/
def process_sampler (c : Counts) (off : Nat) : List Entry × Nat × Counts :=
  let (name, c) := getName c "sampler"
  ([{ name := "spi_" ++ name ++ "_adc", ty := "local",
      module := "artiq.coredevice.spi2", className := "SPIMaster",
      args := [("channel", Arg.chan off)] },
    { name := "spi_" ++ name ++ "_pgia", ty := "local",
      module := "artiq.coredevice.spi2", className := "SPIMaster",
      args := [("channel", Arg.chan (off + 1))] },
    { name := "ttl_" ++ name ++ "_cnv", ty := "local",
      module := "artiq.coredevice.ttl", className := "TTLOut",
      args := [("channel", Arg.chan (off + 2))] },
    { name := name, ty := "local",
      module := "artiq.coredevice.sampler", className := "Sampler",
      args := [("spi_adc_device", Arg.dev ("spi_" ++ name ++ "_adc")),
               ("spi_pgia_device", Arg.dev ("spi_" ++ name ++ "_pgia")),
               ("cnv_device", Arg.dev ("ttl_" ++ name ++ "_cnv"))] }], 3, c)

/-- `process_suservo`: eight servo channels, the SUServo entry, the PGIA SPI
entry, and, for each of the two Urukuls, an SPI entry, a CPLD entry and a
DDS entry. -/
def process_suservo (c : Counts) (md : NodeDesc) (off : Nat) (refclk : Option ℚ)
    (clk_sel : Nat) (pll_vco : Option Nat) (pll_n : Nat) :
    List Entry × Nat × Counts :=
  let (suservo_name, c) := getName c "suservo"
  let (sampler_name, c) := getName c "sampler"
  let (urukul0_name, c) := getName c "urukul"
  let (urukul1_name, c) := getName c "urukul"
  let chs : List Entry := (List.range 8).map (fun i =>
    { name := suservo_name ++ "_ch" ++ natStr i, ty := "local",
      module := "artiq.coredevice.suservo", className := "Channel",
      args := [("channel", Arg.chan (off + i)),
               ("servo_device", Arg.dev suservo_name)] })
  let suservoE : Entry :=
    { name := suservo_name, ty := "local",
      module := "artiq.coredevice.suservo", className := "SUServo",
      args := [("channel", Arg.chan (off + 8)),
               ("pgia_device", Arg.dev ("spi_" ++ sampler_name ++ "_pgia")),
               ("cpld_devices", Arg.devs [urukul0_name ++ "_cpld", urukul1_name ++ "_cpld"]),
               ("dds_devices", Arg.devs [urukul0_name ++ "_dds", urukul1_name ++ "_dds"])] }
  let pgia : Entry :=
    { name := "spi_" ++ sampler_name ++ "_pgia", ty := "local",
      module := "artiq.coredevice.spi2", className := "SPIMaster",
      args := [("channel", Arg.chan (off + 9))] }
  let urukulBlock := fun (urukul_name : String) (j : Nat) =>
    [({ name := "spi_" ++ urukul_name, ty := "local",
        module := "artiq.coredevice.spi2", className := "SPIMaster",
        args := [("channel", Arg.chan (off + 10 + j))] } : Entry),
     { name := urukul_name ++ "_cpld", ty := "local",
       module := "artiq.coredevice.urukul", className := "CPLD",
       args := [("spi_device", Arg.dev ("spi_" ++ urukul_name)),
                ("refclk", Arg.rat (refclk.getD md.rtio_frequency)),
                ("clk_sel", Arg.nat clk_sel)] },
     { name := urukul_name ++ "_dds", ty := "local",
       module := "artiq.coredevice.ad9910", className := "AD9910",
       args := [("pll_n", Arg.nat pll_n),
                ("chip_select", Arg.nat 3),
                ("cpld_device", Arg.dev (urukul_name ++ "_cpld"))]
         ++ (match pll_vco with
             | some v => [("pll_vco", Arg.nat v)]
             | none => []) }]
  (chs ++ [suservoE, pgia] ++ urukulBlock urukul0_name 0 ++ urukulBlock urukul1_name 1,
   12, c)

/-- `process_zotino`: SPI, LDAC and CLR TTLs, and the Zotino entry. -/
def process_zotino (c : Counts) (off : Nat) : List Entry × Nat × Counts :=
  let (name, c) := getName c "zotino"
  ([{ name := "spi_" ++ name, ty := "local",
      module := "artiq.coredevice.spi2", className := "SPIMaster",
      args := [("channel", Arg.chan off)] },
    { name := "ttl_" ++ name ++ "_ldac", ty := "local",
      module := "artiq.coredevice.ttl", className := "TTLOut",
      args := [("channel", Arg.chan (off + 1))] },
    { name := "ttl_" ++ name ++ "_clr", ty := "local",
      module := "artiq.coredevice.ttl", className := "TTLOut",
      args := [("channel", Arg.chan (off + 2))] },
    { name := name, ty := "local",
      module := "artiq.coredevice.zotino", className := "Zotino",
      args := [("spi_device", Arg.dev ("spi_" ++ name)),
               ("ldac_device", Arg.dev ("ttl_" ++ name ++ "_ldac")),
               ("clr_device", Arg.dev ("ttl_" ++ name ++ "_clr"))] }], 3, c)

/-- `process_grabber`: one entry, two channels consumed. -/
def process_grabber (c : Counts) (off : Nat) : List Entry × Nat × Counts :=
  let (name, c) := getName c "grabber"
  ([{ name := name, ty := "local",
      module := "artiq.coredevice.grabber", className := "Grabber",
      args := [("channel_base", Arg.chan off)] }], 2, c)

/-- `process_fastino`: one entry, one channel consumed. -/
def process_fastino (c : Counts) (off : Nat) : List Entry × Nat × Counts :=
  let (name, c) := getName c "fastino"
  ([{ name := name, ty := "local",
      module := "artiq.coredevice.fastino", className := "Fastino",
      args := [("channel", Arg.chan off)] }], 1, c)

/-- `process_phaser`: one entry, five channels consumed. -/
def process_phaser (c : Counts) (off : Nat) : List Entry × Nat × Counts :=
  let (name, c) := getName c "phaser"
  ([{ name := name, ty := "local",
      module := "artiq.coredevice.phaser", className := "Phaser",
      args := [("channel_base", Arg.chan off), ("miso_delay", Arg.nat 1)] }], 5, c)

/-- `PeripheralManager.process`: dispatch on the peripheral's type tag. -/
def processPeripheral (c : Counts) (md : NodeDesc) (off : Nat) :
    Peripheral → List Entry × Nat × Counts
  | .dio lo hi edge => process_dio c off lo hi edge
  | .urukul ports sync refclk clk_sel dds pll_vco pll_n =>
      process_urukul c md off ports sync refclk clk_sel dds pll_vco pll_n
  | .mirny refclk clk_sel => process_mirny c off refclk clk_sel
  | .novogorny => process_novogorny c off
  | .sampler => process_sampler c off
  | .suservo refclk clk_sel pll_vco pll_n =>
      process_suservo c md off refclk clk_sel pll_vco pll_n
  | .zotino => process_zotino c off
  | .grabber => process_grabber c off
  | .fastino => process_fastino c off
  | .phaser => process_phaser c off

/-- `add_sfp_leds`: two LED TTL outputs, two channels consumed. -/
def add_sfp_leds (c : Counts) (off : Nat) : List Entry × Nat × Counts :=
  let (name0, c) := getName c "led"
  let (name1, c) := getName c "led"
  ([{ name := name0, ty := "local",
      module := "artiq.coredevice.ttl", className := "TTLOut",
      args := [("channel", Arg.chan (off + 0))] },
    { name := name1, ty := "local",
      module := "artiq.coredevice.ttl", className := "TTLOut",
      args := [("channel", Arg.chan (off + 1))] }], 2, c)

/-! ### Node orchestration and the build driver -/

/-- Process one node's peripheral list in declaration order, advancing the
RTIO offset by exactly each expansion's returned channel count. -/
def processNode (c : Counts) (md : NodeDesc) (off : Nat) :
    List Peripheral → List Entry × Nat × Counts
  | [] => ([], off, c)
  | p :: ps =>
    let r := processPeripheral c md off p
    let r' := processNode r.2.2 md (off + r.2.1) ps
    (r.1 ++ r'.1, r'.2.1, r'.2.2)

/-- Per-peripheral trace of one node's pass: for each declaration, the base
offset it was given, the channel count it returned, and its entries. -/
def nodeTrace (c : Counts) (md : NodeDesc) (off : Nat) :
    List Peripheral → List (Nat × Nat × List Entry)
  | [] => []
  | p :: ps =>
    let r := processPeripheral c md off p
    (off, r.2.1, r.1) :: nodeTrace r.2.2 md (off + r.2.1) ps

/-- The fixed entries of `process_header`'s preamble. -/
def headerEntries (md : NodeDesc) : List Entry :=
  [{ name := "core", ty := "local",
     module := "artiq.coredevice.core", className := "Core",
     args := [("host", Arg.str md.core_addr),
              ("ref_period", Arg.rat (1 / (8 * md.rtio_frequency)))] },
   { name := "core_log", ty := "controller", module := "", className := "",
     args := [("host", Arg.str "::1"), ("port", Arg.nat 1068),
              ("command",
               Arg.str ("aqctl_corelog -p {port} --bind {bind} " ++ md.core_addr))] },
   { name := "core_cache", ty := "local",
     module := "artiq.coredevice.cache", className := "CoreCache", args := [] },
   { name := "core_dma", ty := "local",
     module := "artiq.coredevice.dma", className := "CoreDMA", args := [] },
   { name := "i2c_switch0", ty := "local",
     module := "artiq.coredevice.i2c", className := "PCA9548",
     args := [("address", Arg.nat 0xe0)] },
   { name := "i2c_switch1", ty := "local",
     module := "artiq.coredevice.i2c", className := "PCA9548",
     args := [("address", Arg.nat 0xe2)] }]

/-- Process the satellite list: each satellite's base role is checked only
when it is reached; its cursor is reset to `destination << 16`. -/
def processSats (c : Counts) (md : NodeDesc) :
    List (Nat × NodeDesc) → List Item × Option String
  | [] => ([], none)
  | (dest, desc) :: rest =>
    if desc.base ≠ "satellite" then
      ([], some ("Invalid base for satellite at destination " ++ natStr dest))
    else
      let r := processNode c md (dest * 65536) desc.peripherals
      let rest' := processSats r.2.2 md rest
      (Item.comment ("# DEST#" ++ natStr dest ++ " peripherals") ::
        r.1.map Item.entry ++ rest'.1, rest'.2)

/-- The build driver `process(output, master_description, satellites)`:
validates the master's role, emits the header, the master node's entries
(with the legacy-revision SFP LEDs for standalone v1.0/v1.1 systems), then
each satellite at its shifted base.  A fatal error is returned together
with whatever output was produced before it was raised. -/
def process (md : NodeDesc) (sats : List (Nat × NodeDesc)) :
    List Item × Option String :=
  if md.base ≠ "standalone" ∧ md.base ≠ "master" then
    ([], some "Invalid master base")
  else if md.base = "standalone" ∧ sats ≠ [] then
    ([], some "A standalone system cannot have satellites")
  else if md.target ≠ "kasli" then
    ([], some "NotImplementedError")
  else
    let r := processNode counts0 md 0 md.peripherals
    let ledsPart : List Entry × Counts :=
      if md.base = "standalone" ∧ (md.hw_rev = "v1.0" ∨ md.hw_rev = "v1.1") then
        let l := add_sfp_leds r.2.2 r.2.1
        (l.1, l.2.2)
      else ([], r.2.2)
    let satsPart := processSats ledsPart.2 md sats
    (Item.header (headerEntries md) ::
       Item.comment ("# " ++ md.base ++ " peripherals") ::
       (r.1 ++ ledsPart.1).map Item.entry ++ satsPart.1,
     satsPart.2)

/-! ### Specification-side predicates and concrete test descriptions -/

/-- Relates an expansion result `r` (entries, count, new allocator state) to
a symbolic list `L` of structured names: the emitted names are exactly the
renderings of `L`, `L` has no duplicates, every structured name's counter
index is fresh (at least the old counter, below the new one, for its own
type prefix), and counters only grow. -/
def NameSpec (c : Counts) (r : List Entry × Nat × Counts) (L : List DevName) : Prop :=
  r.1.map Entry.name = L.map render ∧
  L.Nodup ∧
  (∀ d ∈ L, c d.pfx.str ≤ d.idx ∧ d.idx < r.2.2 d.pfx.str) ∧
  (∀ s, c s ≤ r.2.2 s)

/-- Placeholder entry used as a default for list indexing. -/
def defaultEntry : Entry :=
  { name := "", ty := "", module := "", className := "", args := [] }

/-- Standalone node with one synchronized single-port Urukul (spec scenario 2). -/
def mdUruSync : NodeDesc :=
  { target := "kasli", variant := "demo", core_addr := "192.168.1.70",
    rtio_frequency := 125000000, base := "standalone", hw_rev := "v2.0",
    peripherals := [.urukul [0] true none 2 .ad9910 none none] }

/-- Standalone node with one Mirny card. -/
def mdMirny : NodeDesc :=
  { target := "kasli", variant := "demo", core_addr := "192.168.1.70",
    rtio_frequency := 125000000, base := "standalone", hw_rev := "v2.0",
    peripherals := [.mirny 100000000 1] }

/-- Standalone node on a legacy hardware revision with no peripherals
(spec scenario 4). -/
def mdStandaloneLegacy : NodeDesc :=
  { target := "kasli", variant := "demo", core_addr := "192.168.1.70",
    rtio_frequency := 125000000, base := "standalone", hw_rev := "v1.0",
    peripherals := [] }

/-- Master (primary) node on a legacy hardware revision with no peripherals. -/
def mdMasterLegacy : NodeDesc :=
  { target := "kasli", variant := "demo", core_addr := "192.168.1.70",
    rtio_frequency := 125000000, base := "master", hw_rev := "v1.0",
    peripherals := [] }

/-- Master node with one DIO bank. -/
def mdMasterDio : NodeDesc :=
  { target := "kasli", variant := "demo", core_addr := "192.168.1.70",
    rtio_frequency := 125000000, base := "master", hw_rev := "v2.0",
    peripherals := [.dio .output .output false] }

/-- Satellite node with one Fastino. -/
def satFastino : NodeDesc :=
  { target := "kasli", variant := "demo", core_addr := "192.168.1.70",
    rtio_frequency := 125000000, base := "satellite", hw_rev := "v2.0",
    peripherals := [.fastino] }

/-- Satellite node with no peripherals. -/
def satEmpty : NodeDesc :=
  { target := "kasli", variant := "demo", core_addr := "192.168.1.70",
    rtio_frequency := 125000000, base := "satellite", hw_rev := "v2.0",
    peripherals := [] }

/-- A secondary description that wrongly declares the `standalone` role. -/
def badSat : NodeDesc :=
  { target := "kasli", variant := "demo", core_addr := "192.168.1.70",
    rtio_frequency := 125000000, base := "standalone", hw_rev := "v2.0",
    peripherals := [] }

/-- Master description that wrongly declares the `satellite` role. -/
def mdWrongRole : NodeDesc :=
  { target := "kasli", variant := "demo", core_addr := "192.168.1.70",
    rtio_frequency := 125000000, base := "satellite", hw_rev := "v2.0",
    peripherals := [] }

/-! ### Lemmas about decimal rendering -/

theorem natDigitsAux_eq (fuel fuel' n : Nat) (h : n < fuel) (h' : n < fuel') :
    natDigitsAux fuel n = natDigitsAux fuel' n := by
  induction n using Nat.strong_induction_on generalizing fuel fuel' with
  | _ n ih =>
    match fuel, fuel' with
    | f + 1, f' + 1 =>
      simp only [natDigitsAux]
      by_cases h10 : n < 10
      · simp [h10]
      · simp only [h10, if_false]
        rw [ih (n / 10) (Nat.div_lt_self (by omega) (by omega)) f f' (by omega) (by omega)]

theorem natDigits_unfold (n : Nat) :
    natDigits n = if n < 10 then [digitChar n]
      else natDigits (n / 10) ++ [digitChar (n % 10)] := by
  show natDigitsAux (n + 1) n = _
  by_cases h10 : n < 10
  · simp [natDigitsAux, h10]
  · simp only [natDigitsAux, h10, if_false]
    congr 1
    exact natDigitsAux_eq _ _ _ (by omega) (by omega)

theorem digitChar_toNat (n : Nat) (h : n < 10) : (digitChar n).toNat = 48 + n := by
  interval_cases n <;> decide

theorem isDig_digitChar (n : Nat) (h : n < 10) : isDig (digitChar n) = true := by
  interval_cases n <;> decide

theorem natDigits_all_dig (n : Nat) : ∀ c ∈ natDigits n, isDig c = true := by
  induction n using Nat.strong_induction_on with
  | _ n ih =>
    rw [natDigits_unfold]
    by_cases h10 : n < 10
    · simp [h10, isDig_digitChar n h10]
    · simp only [h10, if_false]
      intro c hc
      rcases List.mem_append.mp hc with h | h
      · exact ih (n / 10) (Nat.div_lt_self (by omega) (by omega)) c h
      · simp only [List.mem_singleton] at h
        subst h
        exact isDig_digitChar _ (Nat.mod_lt _ (by omega))

theorem natDigits_ne_nil (n : Nat) : natDigits n ≠ [] := by
  rw [natDigits_unfold]
  by_cases h10 : n < 10 <;> simp [h10]

theorem valOfDigits_natDigits (n : Nat) : valOfDigits (natDigits n) = n := by
  induction n using Nat.strong_induction_on with
  | _ n ih =>
    rw [natDigits_unfold]
    by_cases h10 : n < 10
    · simp [h10, valOfDigits, digitChar_toNat n h10]
    · simp only [h10, if_false, valOfDigits, List.foldl_append, List.foldl_cons,
        List.foldl_nil]
      have hv := ih (n / 10) (Nat.div_lt_self (by omega) (by omega))
      simp only [valOfDigits] at hv
      rw [hv, digitChar_toNat _ (Nat.mod_lt _ (by omega))]
      omega

/-! ### Lemmas about the parsing primitives -/

theorem takeWhile_isDig_append (xs ys : List Char) (h : ∀ c ∈ xs, isDig c = true) :
    (xs ++ ys).takeWhile isDig = xs ++ ys.takeWhile isDig := by
  induction xs with
  | nil => simp
  | cons x xs ih =>
    simp [List.takeWhile_cons, h x (by simp), ih (fun c hc => h c (by simp [hc]))]

theorem dropWhile_isDig_append (xs ys : List Char) (h : ∀ c ∈ xs, isDig c = true) :
    (xs ++ ys).dropWhile isDig = ys.dropWhile isDig := by
  induction xs with
  | nil => simp
  | cons x xs ih =>
    simp only [List.cons_append, List.dropWhile_cons, h x (by simp)]
    exact ih (fun c hc => h c (by simp [hc]))

theorem takeWhile_headNotDig (s : List Char) (h : headNotDig s) :
    s.takeWhile isDig = [] := by
  cases s with
  | nil => rfl
  | cons a s => simp [List.takeWhile_cons, h a rfl]

theorem dropWhile_headNotDig (s : List Char) (h : headNotDig s) :
    s.dropWhile isDig = s := by
  cases s with
  | nil => rfl
  | cons a s => simp [List.dropWhile_cons, h a rfl]

theorem parseNat_digits_append (n : Nat) (rest : List Char) (h : headNotDig rest) :
    parseNat (natDigits n ++ rest) = some (n, rest) := by
  have ht : (natDigits n ++ rest).takeWhile isDig = natDigits n := by
    rw [takeWhile_isDig_append _ _ (natDigits_all_dig n), takeWhile_headNotDig _ h,
      List.append_nil]
  have hd : (natDigits n ++ rest).dropWhile isDig = rest := by
    rw [dropWhile_isDig_append _ _ (natDigits_all_dig n), dropWhile_headNotDig _ h]
  simp [parseNat, ht, hd, List.isEmpty_iff, natDigits_ne_nil, valOfDigits_natDigits]

theorem parseNat_natDigits (n : Nat) : parseNat (natDigits n) = some (n, []) := by
  have := parseNat_digits_append n [] (fun c hc => by simp at hc)
  simpa using this

theorem stripPre_append (l r : List Char) : stripPre l (l ++ r) = some r := by
  induction l with
  | nil => rfl
  | cons a l ih => simp [stripPre, ih]

theorem stripPre_digits_cons (a : Char) (l : List Char) (n : Nat) (rest : List Char)
    (ha : isDig a = false) :
    stripPre (a :: l) (natDigits n ++ rest) = none := by
  obtain ⟨d, ds, hd⟩ : ∃ d ds, natDigits n = d :: ds := by
    cases hnd : natDigits n with
    | nil => exact absurd hnd (natDigits_ne_nil n)
    | cons d ds => exact ⟨d, ds, rfl⟩
  have hdig : isDig d = true := natDigits_all_dig n d (hd ▸ List.mem_cons_self d ds)
  have hne : a ≠ d := by
    intro heq
    rw [heq, hdig] at ha
    exact absurd ha (by simp)
  rw [hd]
  simp [stripPre, hne]

/-! ### Round-trip of name rendering and decoding -/

theorem opt_none_orElse {α : Type} (x : Option α) : (none <|> x) = x := rfl

theorem opt_some_orElse {α : Type} (a : α) (x : Option α) : (some a <|> x) = some a := rfl

theorem tryPfx_self (p : Pfx) (n : Nat) (rest : List Char) (h : headNotDig rest) :
    tryPfx p (p.chars ++ (natDigits n ++ rest)) = some (p, n, rest) := by
  simp [tryPfx, stripPre_append, parseNat_digits_append n rest h]

theorem parseBase_append (p : Pfx) (n : Nat) (rest : List Char) (h : headNotDig rest) :
    parseBase (p.chars ++ (natDigits n ++ rest)) = some (p, n, rest) := by
  have hdig : stripPre ('_' :: ['c', 'o', 'u', 'n', 't', 'e', 'r'])
      (natDigits n ++ rest) = none :=
    stripPre_digits_cons _ _ _ _ (by decide)
  cases p <;>
    simp [parseBase, tryPfx, Pfx.chars, stripPre, hdig, opt_none_orElse,
      opt_some_orElse, parseNat_digits_append n rest h]

theorem suf_headNotDig (suf : Suf) : headNotDig suf.chars := by
  cases suf <;> intro c hc <;> simp [Suf.chars] at hc <;> subst hc <;> decide

theorem parseSuf_chars (suf : Suf) : parseSuf suf.chars = some suf := by
  cases suf <;> simp [parseSuf, Suf.chars, stripPre, parseNat_natDigits]

theorem decodeWith_self (pre : Pre) (p : Pfx) (n : Nat) (suf : Suf) :
    decodeWith pre (pre.chars ++ (p.chars ++ (natDigits n ++ suf.chars))) =
      some ⟨pre, p, n, suf⟩ := by
  simp [decodeWith, stripPre_append, parseBase_append p n suf.chars (suf_headNotDig suf),
    parseSuf_chars]

theorem dw_eeprom_spi (p : Pfx) (n : Nat) (suf : Suf) :
    decodeWith .eeprom (Pre.spi.chars ++ (p.chars ++ (natDigits n ++ suf.chars))) = none := by
  simp [decodeWith, Pre.chars, stripPre]

theorem dw_eeprom_ttlpre (p : Pfx) (n : Nat) (suf : Suf) :
    decodeWith .eeprom (Pre.ttl.chars ++ (p.chars ++ (natDigits n ++ suf.chars))) = none := by
  simp [decodeWith, Pre.chars, stripPre]

theorem dw_spi_ttlpre (p : Pfx) (n : Nat) (suf : Suf) :
    decodeWith .spi (Pre.ttl.chars ++ (p.chars ++ (natDigits n ++ suf.chars))) = none := by
  simp [decodeWith, Pre.chars, stripPre]

theorem dw_eeprom_bare (p : Pfx) (n : Nat) (suf : Suf) :
    decodeWith .eeprom (Pre.bare.chars ++ (p.chars ++ (natDigits n ++ suf.chars))) = none := by
  cases p <;> simp [decodeWith, Pre.chars, Pfx.chars, stripPre]

theorem dw_spi_bare (p : Pfx) (n : Nat) (suf : Suf) :
    decodeWith .spi (Pre.bare.chars ++ (p.chars ++ (natDigits n ++ suf.chars))) = none := by
  cases p <;> simp [decodeWith, Pre.chars, Pfx.chars, stripPre]

theorem dw_ttl_bare (p : Pfx) (n : Nat) (suf : Suf) :
    decodeWith .ttl (Pre.bare.chars ++ (p.chars ++ (natDigits n ++ suf.chars))) = none := by
  have hd : stripPre ['_'] (natDigits n ++ suf.chars) = none :=
    stripPre_digits_cons '_' [] n _ (by decide)
  have hpb : parseBase
      ('c' :: 'o' :: 'u' :: 'n' :: 't' :: 'e' :: 'r' :: (natDigits n ++ suf.chars)) = none := by
    simp [parseBase, tryPfx, Pfx.chars, stripPre]
  cases p <;> simp [decodeWith, Pre.chars, Pfx.chars, stripPre, hd, hpb]

theorem decode_renderL (d : DevName) : decode (renderL d) = some d := by
  obtain ⟨pre, p, n, suf⟩ := d
  cases pre with
  | eeprom =>
    simp only [renderL, decode]
    rw [decodeWith_self]
    rfl
  | spi =>
    simp only [renderL, decode]
    rw [dw_eeprom_spi, decodeWith_self]
    rfl
  | ttl =>
    simp only [renderL, decode]
    rw [dw_eeprom_ttlpre, dw_spi_ttlpre, decodeWith_self]
    rfl
  | bare =>
    simp only [renderL, decode]
    rw [dw_eeprom_bare, dw_spi_bare, dw_ttl_bare, decodeWith_self]
    rfl

theorem render_injective : Function.Injective render := by
  intro d1 d2 h
  have h2 : renderL d1 = renderL d2 := congrArg String.data h
  have h3 := decode_renderL d1
  rw [h2, decode_renderL d2] at h3
  exact ((Option.some.injEq _ _).mp h3).symm

theorem render_ne_of_decode_none (s : String) (hd : decode s.data = none) (d : DevName) :
    render d ≠ s := by
  intro he
  have : decode (renderL d) = none := by
    have hdata : renderL d = s.data := congrArg String.data he
    rw [hdata, hd]
  rw [decode_renderL d] at this
  exact Option.noConfusion this

/-! ### Per-expander characterization of generated names -/

theorem str_eq_iff (s t : String) : s = t ↔ s.data = t.data :=
  ⟨fun h => congrArg _ h, fun h => by cases s; cases t; exact congrArg String.mk h⟩

theorem data_append (s t : String) : (s ++ t).data = s.data ++ t.data := rfl

theorem urukul_names (c : Counts) (md : NodeDesc) (off : Nat) (ports : List Nat)
    (sync : Bool) (rc : Option ℚ) (cs : Nat) (dds : Dds) (pv pn : Option Nat) :
    NameSpec c (process_urukul c md off ports sync rc cs dds pv pn)
      ([⟨.eeprom, .urukul, c "urukul", .bare⟩, ⟨.spi, .urukul, c "urukul", .bare⟩]
        ++ (if sync then [⟨.ttl, .urukul, c "urukul", .sync⟩] else [])
        ++ [⟨.ttl, .urukul, c "urukul", .ioUpdate⟩]
        ++ (if ports.length > 1 then
              (List.range 4).map (fun i => ⟨.ttl, .urukul, c "urukul", .sw i⟩) else [])
        ++ [⟨.bare, .urukul, c "urukul", .cpld⟩]
        ++ (List.range 4).map (fun i => ⟨.bare, .urukul, c "urukul", .ch i⟩)) := by
  have h2 : (process_urukul c md off ports sync rc cs dds pv pn).2.2 = bump c "urukul" := by
    simp [process_urukul, getName]
  refine ⟨?_, ?_, ?_, ?_⟩
  · cases dds <;> by_cases hs : sync <;> by_cases hp : ports.length > 1 <;>
      simp [process_urukul, getName, hs, hp, List.range_succ, str_eq_iff, data_append,
        render, renderL, natStr, Pre.chars, Pfx.chars, Suf.chars]
  · by_cases hs : sync <;> by_cases hp : ports.length > 1 <;>
      simp [hs, hp, List.range_succ]
  · intro d hd
    rw [h2]
    revert d hd
    by_cases hs : sync <;> by_cases hp : ports.length > 1 <;>
      simp [hs, hp, List.range_succ, List.forall_mem_cons, Pfx.str, bump]
  · intro s
    rw [h2]
    by_cases hb : s = "urukul" <;> simp [bump, hb]

set_option maxHeartbeats 1000000 in
theorem dio_names (c : Counts) (off : Nat) (lo hi : BankDir) (edge : Bool) :
    NameSpec c (process_dio c off lo hi edge)
      ((List.range 8).map (fun i => ⟨.bare, .ttl, c "ttl" + i, .bare⟩)
        ++ (if edge then
              (List.range ((if lo = BankDir.input then 4 else 0) +
                  (if hi = BankDir.input then 4 else 0))).map
                (fun j => ⟨.bare, .ttlCounter, c "ttl_counter" + j, .bare⟩)
            else [])) := by
  refine ⟨?_, ?_, ?_, ?_⟩
  · cases lo <;> cases hi <;> cases edge <;>
      simp [process_dio, getName, bump, dioClassName, List.range_succ, str_eq_iff,
        data_append, render, renderL, natStr, Pre.chars, Pfx.chars, Suf.chars] <;>
      (try (first | rfl | (congr 1 <;> omega)))
  · cases lo <;> cases hi <;> cases edge <;> simp [List.range_succ] <;> omega
  · intro d hd
    revert d hd
    cases lo <;> cases hi <;> cases edge <;>
      simp [process_dio, getName, bump, dioClassName, List.range_succ,
        List.forall_mem_cons, Pfx.str] <;> omega
  · intro s
    cases lo <;> cases hi <;> cases edge <;>
      simp [process_dio, getName, bump, dioClassName, List.range_succ] <;>
      split_ifs <;> subst_vars <;> omega

theorem mirny_names (c : Counts) (off : Nat) (rc : ℚ) (cs : Nat) :
    NameSpec c (process_mirny c off rc cs)
      ([⟨.spi, .mirny, c "mirny", .bare⟩]
        ++ (List.range 4).map (fun i => ⟨.ttl, .mirny, c "mirny", .sw i⟩)
        ++ (List.range 4).map (fun i => ⟨.bare, .mirny, c "mirny", .ch i⟩)
        ++ [⟨.bare, .mirny, c "mirny", .cpld⟩]) := by
  refine ⟨?_, ?_, ?_, ?_⟩
  · simp [process_mirny, getName, List.range_succ, str_eq_iff, data_append,
      render, renderL, natStr, Pre.chars, Pfx.chars, Suf.chars]
  · simp [List.range_succ]
  · intro d hd
    revert d hd
    simp [process_mirny, getName, bump, List.range_succ, List.forall_mem_cons, Pfx.str] <;>
      omega
  · intro s
    by_cases h1 : s = "mirny" <;> simp [process_mirny, getName, bump, h1]

theorem novogorny_names (c : Counts) (off : Nat) :
    NameSpec c (process_novogorny c off)
      [⟨.spi, .novogorny, c "novogorny", .adc⟩, ⟨.ttl, .novogorny, c "novogorny", .cnv⟩,
       ⟨.bare, .novogorny, c "novogorny", .bare⟩] := by
  refine ⟨?_, ?_, ?_, ?_⟩
  · simp [process_novogorny, getName, str_eq_iff, data_append,
      render, renderL, natStr, Pre.chars, Pfx.chars, Suf.chars]
  · simp
  · intro d hd
    revert d hd
    simp [process_novogorny, getName, bump, List.forall_mem_cons, Pfx.str]
  · intro s
    by_cases h1 : s = "novogorny" <;> simp [process_novogorny, getName, bump, h1]

theorem sampler_names (c : Counts) (off : Nat) :
    NameSpec c (process_sampler c off)
      [⟨.spi, .sampler, c "sampler", .adc⟩, ⟨.spi, .sampler, c "sampler", .pgia⟩,
       ⟨.ttl, .sampler, c "sampler", .cnv⟩, ⟨.bare, .sampler, c "sampler", .bare⟩] := by
  refine ⟨?_, ?_, ?_, ?_⟩
  · simp [process_sampler, getName, str_eq_iff, data_append,
      render, renderL, natStr, Pre.chars, Pfx.chars, Suf.chars]
  · simp
  · intro d hd
    revert d hd
    simp [process_sampler, getName, bump, List.forall_mem_cons, Pfx.str]
  · intro s
    by_cases h1 : s = "sampler" <;> simp [process_sampler, getName, bump, h1]

theorem suservo_names (c : Counts) (md : NodeDesc) (off : Nat) (rc : Option ℚ)
    (cs : Nat) (pv : Option Nat) (pn : Nat) :
    NameSpec c (process_suservo c md off rc cs pv pn)
      ((List.range 8).map (fun i => ⟨.bare, .suservo, c "suservo", .ch i⟩)
        ++ [⟨.bare, .suservo, c "suservo", .bare⟩, ⟨.spi, .sampler, c "sampler", .pgia⟩,
            ⟨.spi, .urukul, c "urukul", .bare⟩, ⟨.bare, .urukul, c "urukul", .cpld⟩,
            ⟨.bare, .urukul, c "urukul", .dds⟩,
            ⟨.spi, .urukul, c "urukul" + 1, .bare⟩, ⟨.bare, .urukul, c "urukul" + 1, .cpld⟩,
            ⟨.bare, .urukul, c "urukul" + 1, .dds⟩]) := by
  refine ⟨?_, ?_, ?_, ?_⟩
  · simp [process_suservo, getName, bump, List.range_succ, str_eq_iff, data_append,
      render, renderL, natStr, Pre.chars, Pfx.chars, Suf.chars]
  · simp [List.range_succ]
  · intro d hd
    revert d hd
    simp [process_suservo, getName, bump, List.range_succ, List.forall_mem_cons, Pfx.str] <;>
      omega
  · intro s
    by_cases h1 : s = "suservo" <;> by_cases h2 : s = "sampler" <;>
      by_cases h3 : s = "urukul" <;>
      simp [process_suservo, getName, bump, h1, h2, h3] <;> omega

theorem zotino_names (c : Counts) (off : Nat) :
    NameSpec c (process_zotino c off)
      [⟨.spi, .zotino, c "zotino", .bare⟩, ⟨.ttl, .zotino, c "zotino", .ldac⟩,
       ⟨.ttl, .zotino, c "zotino", .clr⟩, ⟨.bare, .zotino, c "zotino", .bare⟩] := by
  refine ⟨?_, ?_, ?_, ?_⟩
  · simp [process_zotino, getName, str_eq_iff, data_append,
      render, renderL, natStr, Pre.chars, Pfx.chars, Suf.chars]
  · simp
  · intro d hd
    revert d hd
    simp [process_zotino, getName, bump, List.forall_mem_cons, Pfx.str]
  · intro s
    by_cases h1 : s = "zotino" <;> simp [process_zotino, getName, bump, h1]

theorem grabber_names (c : Counts) (off : Nat) :
    NameSpec c (process_grabber c off) [⟨.bare, .grabber, c "grabber", .bare⟩] := by
  refine ⟨?_, ?_, ?_, ?_⟩
  · simp [process_grabber, getName, str_eq_iff, data_append,
      render, renderL, natStr, Pre.chars, Pfx.chars, Suf.chars]
  · simp
  · intro d hd
    revert d hd
    simp [process_grabber, getName, bump, List.forall_mem_cons, Pfx.str]
  · intro s
    by_cases h1 : s = "grabber" <;> simp [process_grabber, getName, bump, h1]

theorem fastino_names (c : Counts) (off : Nat) :
    NameSpec c (process_fastino c off) [⟨.bare, .fastino, c "fastino", .bare⟩] := by
  refine ⟨?_, ?_, ?_, ?_⟩
  · simp [process_fastino, getName, str_eq_iff, data_append,
      render, renderL, natStr, Pre.chars, Pfx.chars, Suf.chars]
  · simp
  · intro d hd
    revert d hd
    simp [process_fastino, getName, bump, List.forall_mem_cons, Pfx.str]
  · intro s
    by_cases h1 : s = "fastino" <;> simp [process_fastino, getName, bump, h1]

theorem phaser_names (c : Counts) (off : Nat) :
    NameSpec c (process_phaser c off) [⟨.bare, .phaser, c "phaser", .bare⟩] := by
  refine ⟨?_, ?_, ?_, ?_⟩
  · simp [process_phaser, getName, str_eq_iff, data_append,
      render, renderL, natStr, Pre.chars, Pfx.chars, Suf.chars]
  · simp
  · intro d hd
    revert d hd
    simp [process_phaser, getName, bump, List.forall_mem_cons, Pfx.str]
  · intro s
    by_cases h1 : s = "phaser" <;> simp [process_phaser, getName, bump, h1]

theorem sfp_leds_names (c : Counts) (off : Nat) :
    NameSpec c (add_sfp_leds c off)
      [⟨.bare, .led, c "led", .bare⟩, ⟨.bare, .led, c "led" + 1, .bare⟩] := by
  refine ⟨?_, ?_, ?_, ?_⟩
  · simp [add_sfp_leds, getName, bump, str_eq_iff, data_append,
      render, renderL, natStr, Pre.chars, Pfx.chars, Suf.chars]
  · simp
  · intro d hd
    revert d hd
    simp [add_sfp_leds, getName, bump, List.forall_mem_cons, Pfx.str] <;> omega
  · intro s
    by_cases h1 : s = "led" <;> simp [add_sfp_leds, getName, bump, h1] <;> omega

/-! ### Dispatch-level lemmas -/

theorem processPeripheral_names (c : Counts) (md : NodeDesc) (off : Nat) (p : Peripheral) :
    ∃ L, NameSpec c (processPeripheral c md off p) L := by
  cases p with
  | dio lo hi edge => exact ⟨_, dio_names c off lo hi edge⟩
  | urukul ports sync rc cs dds pv pn => exact ⟨_, urukul_names c md off ports sync rc cs dds pv pn⟩
  | mirny rc cs => exact ⟨_, mirny_names c off rc cs⟩
  | novogorny => exact ⟨_, novogorny_names c off⟩
  | sampler => exact ⟨_, sampler_names c off⟩
  | suservo rc cs pv pn => exact ⟨_, suservo_names c md off rc cs pv pn⟩
  | zotino => exact ⟨_, zotino_names c off⟩
  | grabber => exact ⟨_, grabber_names c off⟩
  | fastino => exact ⟨_, fastino_names c off⟩
  | phaser => exact ⟨_, phaser_names c off⟩

set_option maxHeartbeats 1000000 in
theorem processPeripheral_led (c : Counts) (md : NodeDesc) (off : Nat) (p : Peripheral) :
    (processPeripheral c md off p).2.2 "led" = c "led" := by
  cases p with
  | dio lo hi edge =>
    cases lo <;> cases hi <;> cases edge <;>
      simp [processPeripheral, process_dio, getName, bump, dioClassName, List.range_succ]
  | urukul ports sync rc cs dds pv pn => simp [processPeripheral, process_urukul, getName, bump]
  | mirny rc cs => simp [processPeripheral, process_mirny, getName, bump]
  | novogorny => simp [processPeripheral, process_novogorny, getName, bump]
  | sampler => simp [processPeripheral, process_sampler, getName, bump]
  | suservo rc cs pv pn => simp [processPeripheral, process_suservo, getName, bump]
  | zotino => simp [processPeripheral, process_zotino, getName, bump]
  | grabber => simp [processPeripheral, process_grabber, getName, bump]
  | fastino => simp [processPeripheral, process_fastino, getName, bump]
  | phaser => simp [processPeripheral, process_phaser, getName, bump]

set_option maxHeartbeats 1000000 in
theorem dio_count (c : Counts) (off : Nat) (lo hi : BankDir) (edge : Bool) :
    (process_dio c off lo hi edge).2.1 =
      8 + (if edge then
             (if lo = BankDir.input then 4 else 0) + (if hi = BankDir.input then 4 else 0)
           else 0) := by
  cases lo <;> cases hi <;> cases edge <;>
    simp [process_dio, getName, dioClassName, List.range_succ]

set_option maxHeartbeats 1000000 in
theorem dio_channels (c : Counts) (off : Nat) (lo hi : BankDir) (edge : Bool) :
    ∀ e ∈ (process_dio c off lo hi edge).1, ∀ x ∈ e.channels,
      off ≤ x ∧ x < off + (8 + (if edge then
        (if lo = BankDir.input then 4 else 0) + (if hi = BankDir.input then 4 else 0)
      else 0)) := by
  cases lo <;> cases hi <;> cases edge <;>
    simp [process_dio, getName, dioClassName, Entry.channels, List.range_succ, List.filterMap_cons,
      -List.mem_filterMap] <;> omega

theorem urukul_count (c : Counts) (md : NodeDesc) (off : Nat) (ports : List Nat)
    (sync : Bool) (rc : Option ℚ) (cs : Nat) (dds : Dds) (pv pn : Option Nat) :
    (process_urukul c md off ports sync rc cs dds pv pn).2.1 =
      (if sync then 3 else 2) + (if ports.length > 1 then 4 else 0) := by
  by_cases hs : sync <;> by_cases hp : ports.length > 1 <;>
    simp [process_urukul, getName, hs, hp]

set_option maxHeartbeats 1000000 in
theorem urukul_channels (c : Counts) (md : NodeDesc) (off : Nat) (ports : List Nat)
    (sync : Bool) (rc : Option ℚ) (cs : Nat) (dds : Dds) (pv pn : Option Nat) :
    ∀ e ∈ (process_urukul c md off ports sync rc cs dds pv pn).1, ∀ x ∈ e.channels,
      off ≤ x ∧ x < off + ((if sync then 3 else 2) + (if ports.length > 1 then 4 else 0)) := by
  cases dds <;> by_cases hs : sync <;> by_cases hp : ports.length > 1 <;> cases pv <;>
    simp [process_urukul, getName, Entry.channels, hs, hp, List.range_succ, List.filterMap_cons,
      -List.mem_filterMap] <;> omega

theorem mirny_channels (c : Counts) (off : Nat) (rc : ℚ) (cs : Nat) :
    ∀ e ∈ (process_mirny c off rc cs).1, ∀ x ∈ e.channels, off ≤ x ∧ x < off + 5 := by
  simp [process_mirny, getName, Entry.channels, List.range_succ, List.filterMap_cons,
      -List.mem_filterMap] <;> omega

theorem novogorny_channels (c : Counts) (off : Nat) :
    ∀ e ∈ (process_novogorny c off).1, ∀ x ∈ e.channels, off ≤ x ∧ x < off + 2 := by
  simp [process_novogorny, getName, Entry.channels, List.filterMap_cons,
    -List.mem_filterMap] <;> omega

theorem sampler_channels (c : Counts) (off : Nat) :
    ∀ e ∈ (process_sampler c off).1, ∀ x ∈ e.channels, off ≤ x ∧ x < off + 3 := by
  simp [process_sampler, getName, Entry.channels, List.filterMap_cons,
    -List.mem_filterMap] <;> omega

theorem suservo_channels (c : Counts) (md : NodeDesc) (off : Nat) (rc : Option ℚ)
    (cs : Nat) (pv : Option Nat) (pn : Nat) :
    ∀ e ∈ (process_suservo c md off rc cs pv pn).1, ∀ x ∈ e.channels,
      off ≤ x ∧ x < off + 12 := by
  cases pv <;>
    simp [process_suservo, getName, Entry.channels, List.range_succ, List.filterMap_cons,
      -List.mem_filterMap] <;> omega

theorem zotino_channels (c : Counts) (off : Nat) :
    ∀ e ∈ (process_zotino c off).1, ∀ x ∈ e.channels, off ≤ x ∧ x < off + 3 := by
  simp [process_zotino, getName, Entry.channels, List.filterMap_cons,
    -List.mem_filterMap] <;> omega

theorem grabber_channels (c : Counts) (off : Nat) :
    ∀ e ∈ (process_grabber c off).1, ∀ x ∈ e.channels, off ≤ x ∧ x < off + 2 := by
  simp [process_grabber, getName, Entry.channels, List.filterMap_cons,
    -List.mem_filterMap]

theorem fastino_channels (c : Counts) (off : Nat) :
    ∀ e ∈ (process_fastino c off).1, ∀ x ∈ e.channels, off ≤ x ∧ x < off + 1 := by
  simp [process_fastino, getName, Entry.channels, List.filterMap_cons,
    -List.mem_filterMap]

theorem phaser_channels (c : Counts) (off : Nat) :
    ∀ e ∈ (process_phaser c off).1, ∀ x ∈ e.channels, off ≤ x ∧ x < off + 5 := by
  simp [process_phaser, getName, Entry.channels, List.filterMap_cons,
    -List.mem_filterMap]

theorem processPeripheral_channels (c : Counts) (md : NodeDesc) (off : Nat) (p : Peripheral) :
    ∀ e ∈ (processPeripheral c md off p).1, ∀ x ∈ e.channels,
      off ≤ x ∧ x < off + (processPeripheral c md off p).2.1 := by
  cases p with
  | dio lo hi edge =>
    have h2 := dio_count c off lo hi edge
    simpa [processPeripheral, h2] using dio_channels c off lo hi edge
  | urukul ports sync rc cs dds pv pn =>
    have h2 := urukul_count c md off ports sync rc cs dds pv pn
    simpa [processPeripheral, h2] using urukul_channels c md off ports sync rc cs dds pv pn
  | mirny rc cs =>
    have h2 : (process_mirny c off rc cs).2.1 = 5 := by simp [process_mirny, getName]
    simpa [processPeripheral, h2] using mirny_channels c off rc cs
  | novogorny =>
    have h2 : (process_novogorny c off).2.1 = 2 := by simp [process_novogorny, getName]
    simpa [processPeripheral, h2] using novogorny_channels c off
  | sampler =>
    have h2 : (process_sampler c off).2.1 = 3 := by simp [process_sampler, getName]
    simpa [processPeripheral, h2] using sampler_channels c off
  | suservo rc cs pv pn =>
    have h2 : (process_suservo c md off rc cs pv pn).2.1 = 12 := by
      simp [process_suservo, getName]
    simpa [processPeripheral, h2] using suservo_channels c md off rc cs pv pn
  | zotino =>
    have h2 : (process_zotino c off).2.1 = 3 := by simp [process_zotino, getName]
    simpa [processPeripheral, h2] using zotino_channels c off
  | grabber =>
    have h2 : (process_grabber c off).2.1 = 2 := by simp [process_grabber, getName]
    simpa [processPeripheral, h2] using grabber_channels c off
  | fastino =>
    have h2 : (process_fastino c off).2.1 = 1 := by simp [process_fastino, getName]
    simpa [processPeripheral, h2] using fastino_channels c off
  | phaser =>
    have h2 : (process_phaser c off).2.1 = 5 := by simp [process_phaser, getName]
    simpa [processPeripheral, h2] using phaser_channels c off

set_option maxHeartbeats 1000000 in
theorem processPeripheral_refs (c : Counts) (md : NodeDesc) (off : Nat) (p : Peripheral) :
    ∀ e ∈ (processPeripheral c md off p).1, ∀ s ∈ e.refs,
      s ∈ (processPeripheral c md off p).1.map Entry.name := by
  cases p with
  | dio lo hi edge =>
    cases lo <;> cases hi <;> cases edge <;>
      simp [processPeripheral, process_dio, getName, dioClassName, Entry.refs,
        List.range_succ]
  | urukul ports sync rc cs dds pv pn =>
    cases dds <;> by_cases hs : sync <;> by_cases hp : ports.length > 1 <;> cases pv <;>
      simp [processPeripheral, process_urukul, getName, Entry.refs, hs, hp,
        List.range_succ]
  | mirny rc cs =>
    simp [processPeripheral, process_mirny, getName, Entry.refs, List.range_succ]
  | novogorny => simp [processPeripheral, process_novogorny, getName, Entry.refs]
  | sampler => simp [processPeripheral, process_sampler, getName, Entry.refs]
  | suservo rc cs pv pn =>
    cases pv <;>
      simp [processPeripheral, process_suservo, getName, Entry.refs, List.range_succ]
  | zotino => simp [processPeripheral, process_zotino, getName, Entry.refs]
  | grabber => simp [processPeripheral, process_grabber, getName, Entry.refs]
  | fastino => simp [processPeripheral, process_fastino, getName, Entry.refs]
  | phaser => simp [processPeripheral, process_phaser, getName, Entry.refs]

/-! ### Node-level lemmas -/

theorem processNode_cons (c : Counts) (md : NodeDesc) (off : Nat) (p : Peripheral)
    (ps : List Peripheral) :
    processNode c md off (p :: ps) =
      ((processPeripheral c md off p).1 ++
        (processNode (processPeripheral c md off p).2.2 md
          (off + (processPeripheral c md off p).2.1) ps).1,
       (processNode (processPeripheral c md off p).2.2 md
          (off + (processPeripheral c md off p).2.1) ps).2.1,
       (processNode (processPeripheral c md off p).2.2 md
          (off + (processPeripheral c md off p).2.1) ps).2.2) := rfl

theorem nodeTrace_cons (c : Counts) (md : NodeDesc) (off : Nat) (p : Peripheral)
    (ps : List Peripheral) :
    nodeTrace c md off (p :: ps) =
      (off, (processPeripheral c md off p).2.1, (processPeripheral c md off p).1) ::
        nodeTrace (processPeripheral c md off p).2.2 md
          (off + (processPeripheral c md off p).2.1) ps := rfl

theorem nameList_combine {c1 c2 c3 : Counts} {L1 L2 : List DevName}
    (hd1 : L1.Nodup) (hd2 : L2.Nodup)
    (hb1 : ∀ d ∈ L1, c1 d.pfx.str ≤ d.idx ∧ d.idx < c2 d.pfx.str)
    (hb2 : ∀ d ∈ L2, c2 d.pfx.str ≤ d.idx ∧ d.idx < c3 d.pfx.str)
    (hm1 : ∀ s, c1 s ≤ c2 s) (hm2 : ∀ s, c2 s ≤ c3 s) :
    (L1 ++ L2).Nodup ∧
      (∀ d ∈ L1 ++ L2, c1 d.pfx.str ≤ d.idx ∧ d.idx < c3 d.pfx.str) := by
  constructor
  · rw [List.nodup_append]
    refine ⟨hd1, hd2, ?_⟩
    intro a ha1 ha2
    have h1 := (hb1 a ha1).2
    have h2 := (hb2 a ha2).1
    omega
  · intro d hd
    rcases List.mem_append.mp hd with h | h
    · exact ⟨(hb1 d h).1, lt_of_lt_of_le (hb1 d h).2 (hm2 _)⟩
    · exact ⟨le_trans (hm1 _) (hb2 d h).1, (hb2 d h).2⟩

theorem processNode_names (c : Counts) (md : NodeDesc) (off : Nat) (ps : List Peripheral) :
    ∃ L, NameSpec c (processNode c md off ps) L := by
  induction ps generalizing c off with
  | nil => exact ⟨[], by simp [processNode], by simp, by simp, fun s => le_refl _⟩
  | cons p ps ih =>
    obtain ⟨L1, hn1, hd1, hb1, hm1⟩ := processPeripheral_names c md off p
    obtain ⟨L2, hn2, hd2, hb2, hm2⟩ :=
      ih (processPeripheral c md off p).2.2 (off + (processPeripheral c md off p).2.1)
    have hcomb := nameList_combine hd1 hd2 hb1 hb2 hm1 hm2
    refine ⟨L1 ++ L2, ?_, hcomb.1, ?_, ?_⟩
    · rw [processNode_cons]
      simp only [List.map_append, hn1, hn2]
    · intro d hd
      rw [processNode_cons]
      exact hcomb.2 d hd
    · intro s
      rw [processNode_cons]
      exact le_trans (hm1 s) (hm2 s)

theorem processNode_led (c : Counts) (md : NodeDesc) (off : Nat) (ps : List Peripheral) :
    (processNode c md off ps).2.2 "led" = c "led" := by
  induction ps generalizing c off with
  | nil => rfl
  | cons p ps ih =>
    rw [processNode_cons]
    exact (ih _ _).trans (processPeripheral_led c md off p)

theorem processNode_refs (c : Counts) (md : NodeDesc) (off : Nat) (ps : List Peripheral) :
    ∀ e ∈ (processNode c md off ps).1, ∀ s ∈ e.refs,
      s ∈ (processNode c md off ps).1.map Entry.name := by
  induction ps generalizing c off with
  | nil => simp [processNode]
  | cons p ps ih =>
    rw [processNode_cons]
    intro e he s hs
    simp only [List.map_append, List.mem_append]
    rcases List.mem_append.mp he with h | h
    · exact Or.inl (processPeripheral_refs c md off p e h s hs)
    · exact Or.inr (ih _ _ e h s hs)

theorem nodeTrace_base_le (c : Counts) (md : NodeDesc) (off : Nat) (ps : List Peripheral) :
    ∀ t ∈ nodeTrace c md off ps, off ≤ t.1 := by
  induction ps generalizing c off with
  | nil => simp [nodeTrace]
  | cons p ps ih =>
    rw [nodeTrace_cons]
    intro t ht
    rcases List.mem_cons.mp ht with h | h
    · subst h; exact le_refl _
    · exact le_trans (Nat.le_add_right _ _) (ih _ _ t h)

theorem nodeTrace_chain (c : Counts) (md : NodeDesc) (off : Nat) (ps : List Peripheral) :
    List.Chain' (fun a b => b.1 = a.1 + a.2.1) (nodeTrace c md off ps) := by
  induction ps generalizing c off with
  | nil => simp [nodeTrace]
  | cons p ps ih =>
    have h := ih (processPeripheral c md off p).2.2 (off + (processPeripheral c md off p).2.1)
    rw [nodeTrace_cons]
    cases ps with
    | nil => simp [nodeTrace]
    | cons q qs =>
      rw [nodeTrace_cons] at h ⊢
      exact List.Chain'.cons rfl h

theorem nodeTrace_inRange (c : Counts) (md : NodeDesc) (off : Nat) (ps : List Peripheral) :
    ∀ t ∈ nodeTrace c md off ps, ∀ e ∈ t.2.2, ∀ x ∈ e.channels,
      t.1 ≤ x ∧ x < t.1 + t.2.1 := by
  induction ps generalizing c off with
  | nil => simp [nodeTrace]
  | cons p ps ih =>
    rw [nodeTrace_cons]
    intro t ht
    rcases List.mem_cons.mp ht with h | h
    · subst h; exact processPeripheral_channels c md off p
    · exact ih _ _ t h

theorem nodeTrace_pairwise (c : Counts) (md : NodeDesc) (off : Nat) (ps : List Peripheral) :
    List.Pairwise (fun a b => a.1 + a.2.1 ≤ b.1) (nodeTrace c md off ps) := by
  induction ps generalizing c off with
  | nil => simp [nodeTrace]
  | cons p ps ih =>
    rw [nodeTrace_cons]
    refine List.Pairwise.cons ?_ (ih _ _)
    intro b hb
    exact nodeTrace_base_le _ md _ ps b hb

theorem processNode_eq_trace (c : Counts) (md : NodeDesc) (off : Nat) (ps : List Peripheral) :
    (processNode c md off ps).1 = ((nodeTrace c md off ps).map (fun t => t.2.2)).flatten := by
  induction ps generalizing c off with
  | nil => rfl
  | cons p ps ih =>
    rw [processNode_cons, nodeTrace_cons]
    simp [ih]

theorem outEntries_cons (it : Item) (xs : List Item) :
    outEntries (it :: xs) = it.itemEntries ++ outEntries xs := rfl

theorem outEntries_append (a b : List Item) :
    outEntries (a ++ b) = outEntries a ++ outEntries b := by
  induction a with
  | nil => rfl
  | cons it xs ih =>
    rw [List.cons_append, outEntries_cons, outEntries_cons, ih, List.append_assoc]

theorem outEntries_map_entry (es : List Entry) : outEntries (es.map Item.entry) = es := by
  induction es with
  | nil => rfl
  | cons e es ih =>
    rw [List.map_cons, outEntries_cons, ih]
    rfl

theorem outEntries_cons_comment (s : String) (xs : List Item) :
    outEntries (Item.comment s :: xs) = outEntries xs := rfl

theorem outEntries_cons_header (es : List Entry) (xs : List Item) :
    outEntries (Item.header es :: xs) = es ++ outEntries xs := rfl

/-! ### Satellite-sequencing and build-driver lemmas -/

theorem processSats_cons_valid (c : Counts) (md : NodeDesc) (dest : Nat) (desc : NodeDesc)
    (rest : List (Nat × NodeDesc)) (h : desc.base = "satellite") :
    processSats c md ((dest, desc) :: rest) =
      (Item.comment ("# DEST#" ++ natStr dest ++ " peripherals") ::
        (processNode c md (dest * 65536) desc.peripherals).1.map Item.entry ++
        (processSats (processNode c md (dest * 65536) desc.peripherals).2.2 md rest).1,
       (processSats (processNode c md (dest * 65536) desc.peripherals).2.2 md rest).2) := by
  simp [processSats, h]

theorem processSats_cons_invalid (c : Counts) (md : NodeDesc) (dest : Nat) (desc : NodeDesc)
    (rest : List (Nat × NodeDesc)) (h : desc.base ≠ "satellite") :
    processSats c md ((dest, desc) :: rest) =
      ([], some ("Invalid base for satellite at destination " ++ natStr dest)) := by
  simp [processSats, h]

theorem processSats_names (c : Counts) (md : NodeDesc) (sats : List (Nat × NodeDesc)) :
    ∃ (L : List DevName) (c' : Counts),
      (outEntries (processSats c md sats).1).map Entry.name = L.map render ∧
      L.Nodup ∧ (∀ d ∈ L, c d.pfx.str ≤ d.idx ∧ d.idx < c' d.pfx.str) ∧
      (∀ s, c s ≤ c' s) ∧ c' "led" = c "led" := by
  induction sats generalizing c with
  | nil =>
    exact ⟨[], c, by simp [processSats, outEntries], by simp, by simp,
      fun s => le_refl _, rfl⟩
  | cons sat rest ih =>
    obtain ⟨dest, desc⟩ := sat
    by_cases hb : desc.base = "satellite"
    · obtain ⟨L1, hn1, hd1, hb1, hm1⟩ := processNode_names c md (dest * 65536) desc.peripherals
      obtain ⟨L2, c2, hn2, hd2, hb2, hm2, hl2⟩ :=
        ih (processNode c md (dest * 65536) desc.peripherals).2.2
      have hcomb := nameList_combine hd1 hd2 hb1 hb2 hm1 hm2
      refine ⟨L1 ++ L2, c2, ?_, hcomb.1, hcomb.2, ?_, ?_⟩
      · rw [processSats_cons_valid c md dest desc rest hb]
        simp only [outEntries_cons_comment, outEntries_append, outEntries_map_entry,
          List.map_append, hn1, hn2]
      · exact fun s => le_trans (hm1 s) (hm2 s)
      · rw [hl2, processNode_led]
    · refine ⟨[], c, ?_, by simp, by simp, fun s => le_refl _, rfl⟩
      rw [processSats_cons_invalid c md dest desc rest hb]
      simp [outEntries]

theorem processSats_refs (c : Counts) (md : NodeDesc) (sats : List (Nat × NodeDesc)) :
    ∀ e ∈ outEntries (processSats c md sats).1, ∀ s ∈ e.refs,
      s ∈ (outEntries (processSats c md sats).1).map Entry.name := by
  induction sats generalizing c with
  | nil => simp [processSats, outEntries]
  | cons sat rest ih =>
    obtain ⟨dest, desc⟩ := sat
    by_cases hb : desc.base = "satellite"
    · rw [processSats_cons_valid c md dest desc rest hb]
      simp only [outEntries_cons_comment, outEntries_append, outEntries_map_entry]
      intro e he s hs
      simp only [List.map_append, List.mem_append]
      rcases List.mem_append.mp he with h | h
      · exact Or.inl (processNode_refs c md (dest * 65536) desc.peripherals e h s hs)
      · exact Or.inr (ih _ e h s hs)
    · rw [processSats_cons_invalid c md dest desc rest hb]
      simp [outEntries]

theorem process_invalid_base (md : NodeDesc) (sats : List (Nat × NodeDesc))
    (h1 : md.base ≠ "standalone") (h2 : md.base ≠ "master") :
    process md sats = ([], some "Invalid master base") := by
  simp [process, h1, h2]

theorem process_standalone_sats (md : NodeDesc) (sats : List (Nat × NodeDesc))
    (h1 : md.base = "standalone") (h2 : sats ≠ []) :
    process md sats = ([], some "A standalone system cannot have satellites") := by
  simp [process, h1, h2]

theorem process_bad_target (md : NodeDesc) (sats : List (Nat × NodeDesc))
    (h1 : ¬(md.base ≠ "standalone" ∧ md.base ≠ "master"))
    (h2 : ¬(md.base = "standalone" ∧ sats ≠ []))
    (h3 : md.target ≠ "kasli") :
    process md sats = ([], some "NotImplementedError") := by
  simp [process, h1, h2, h3]

theorem process_standalone_eq (md : NodeDesc) (sats : List (Nat × NodeDesc))
    (hb : md.base = "standalone") (hs : sats = []) (h3 : md.target = "kasli") :
    process md sats =
      (Item.header (headerEntries md) ::
        Item.comment ("# " ++ md.base ++ " peripherals") ::
        ((processNode counts0 md 0 md.peripherals).1 ++
          (if md.hw_rev = "v1.0" ∨ md.hw_rev = "v1.1" then
            (add_sfp_leds (processNode counts0 md 0 md.peripherals).2.2
              (processNode counts0 md 0 md.peripherals).2.1).1
          else [])).map Item.entry,
       none) := by
  subst hs
  by_cases hl : md.hw_rev = "v1.0" ∨ md.hw_rev = "v1.1" <;>
    simp [process, processSats, hb, h3, hl]

theorem process_master_eq (md : NodeDesc) (sats : List (Nat × NodeDesc))
    (hb : md.base = "master") (h3 : md.target = "kasli") :
    process md sats =
      (Item.header (headerEntries md) ::
        Item.comment ("# " ++ md.base ++ " peripherals") ::
        (processNode counts0 md 0 md.peripherals).1.map Item.entry ++
        (processSats (processNode counts0 md 0 md.peripherals).2.2 md sats).1,
       (processSats (processNode counts0 md 0 md.peripherals).2.2 md sats).2) := by
  simp [process, hb, h3]

theorem add_sfp_leds_eq (c : Counts) (off : Nat) :
    add_sfp_leds c off =
      ([{ name := "led" ++ natStr (c "led"), ty := "local",
          module := "artiq.coredevice.ttl", className := "TTLOut",
          args := [("channel", Arg.chan (off + 0))] },
        { name := "led" ++ natStr (c "led" + 1), ty := "local",
          module := "artiq.coredevice.ttl", className := "TTLOut",
          args := [("channel", Arg.chan (off + 1))] }], 2,
       bump (bump c "led") "led") := by
  simp [add_sfp_leds, getName, bump]

theorem nodup_header_renders (md : NodeDesc) (L : List DevName) (hd : L.Nodup) :
    ((headerEntries md).map Entry.name ++ L.map render).Nodup := by
  have hh : (headerEntries md).map Entry.name =
      ["core", "core_log", "core_cache", "core_dma", "i2c_switch0", "i2c_switch1"] := rfl
  rw [List.nodup_append, hh]
  refine ⟨by decide, hd.map render_injective, ?_⟩
  intro x hx hx2
  obtain ⟨d, hdL, hrd⟩ := List.mem_map.mp hx2
  simp only [List.mem_cons, List.not_mem_nil, or_false] at hx
  rcases hx with rfl | rfl | rfl | rfl | rfl | rfl <;>
    exact render_ne_of_decode_none _ (by decide) d hrd

/-! ### Run-level lemmas -/

theorem sfp_leds_names_ex (c : Counts) (off : Nat) :
    ∃ L, NameSpec c (add_sfp_leds c off) L :=
  ⟨_, sfp_leds_names c off⟩

theorem process_names_nodup (md : NodeDesc) (sats : List (Nat × NodeDesc)) :
    (outNames (process md sats).1).Nodup := by
  by_cases hb1 : md.base = "standalone"
  · by_cases hs : sats = []
    · by_cases h3 : md.target = "kasli"
      · rw [process_standalone_eq md sats hb1 hs h3]
        obtain ⟨L1, hn1, hd1, hbd1, hm1⟩ := processNode_names counts0 md 0 md.peripherals
        by_cases hl : md.hw_rev = "v1.0" ∨ md.hw_rev = "v1.1"
        · obtain ⟨L2, hn2, hd2, hbd2, hm2⟩ := sfp_leds_names_ex
            (processNode counts0 md 0 md.peripherals).2.2
            (processNode counts0 md 0 md.peripherals).2.1
          have hcomb := nameList_combine hd1 hd2 hbd1 hbd2 hm1 hm2
          rw [if_pos hl]
          have heq : outNames (Item.header (headerEntries md) ::
              Item.comment ("# " ++ md.base ++ " peripherals") ::
              ((processNode counts0 md 0 md.peripherals).1 ++
                (add_sfp_leds (processNode counts0 md 0 md.peripherals).2.2
                  (processNode counts0 md 0 md.peripherals).2.1).1).map Item.entry) =
              (headerEntries md).map Entry.name ++ (L1 ++ L2).map render := by
            simp only [outNames, outEntries_cons_header, outEntries_cons_comment,
              outEntries_append, outEntries_map_entry, List.map_append, hn1, hn2,
              List.append_nil]
          rw [heq]
          exact nodup_header_renders md _ hcomb.1
        · rw [if_neg hl]
          have heq : outNames (Item.header (headerEntries md) ::
              Item.comment ("# " ++ md.base ++ " peripherals") ::
              ((processNode counts0 md 0 md.peripherals).1 ++ []).map Item.entry) =
              (headerEntries md).map Entry.name ++ L1.map render := by
            simp only [outNames, outEntries_cons_header, outEntries_cons_comment,
              outEntries_append, outEntries_map_entry, List.map_append, hn1,
              List.append_nil]
          rw [heq]
          exact nodup_header_renders md _ hd1
      · rw [process_bad_target md sats (by simp [hb1]) (by simp [hs]) h3]
        simp [outNames, outEntries]
    · rw [process_standalone_sats md sats hb1 hs]
      simp [outNames, outEntries]
  · by_cases hb2 : md.base = "master"
    · by_cases h3 : md.target = "kasli"
      · rw [process_master_eq md sats hb2 h3]
        obtain ⟨L1, hn1, hd1, hbd1, hm1⟩ := processNode_names counts0 md 0 md.peripherals
        obtain ⟨L2, c2, hn2, hd2, hbd2, hm2, hl2⟩ :=
          processSats_names (processNode counts0 md 0 md.peripherals).2.2 md sats
        have hcomb := nameList_combine hd1 hd2 hbd1 hbd2 hm1 hm2
        have heq : outNames (Item.header (headerEntries md) ::
            Item.comment ("# " ++ md.base ++ " peripherals") ::
            (processNode counts0 md 0 md.peripherals).1.map Item.entry ++
            (processSats (processNode counts0 md 0 md.peripherals).2.2 md sats).1) =
            (headerEntries md).map Entry.name ++ (L1 ++ L2).map render := by
          simp only [outNames, List.cons_append, outEntries_cons_header,
            outEntries_cons_comment, outEntries_append, outEntries_map_entry,
            List.map_append, hn1, hn2]
        rw [heq]
        exact nodup_header_renders md _ hcomb.1
      · rw [process_bad_target md sats (by simp [hb2]) (by simp [hb1]) h3]
        simp [outNames, outEntries]
    · rw [process_invalid_base md sats hb1 hb2]
      simp [outNames, outEntries]

theorem no_led_of_bounds {cA cB : Counts} {L : List DevName} {es : List Entry}
    (hn : es.map Entry.name = L.map render)
    (hbd : ∀ d ∈ L, cA d.pfx.str ≤ d.idx ∧ d.idx < cB d.pfx.str)
    (hled : cB "led" = 0) :
    ∀ e ∈ es, ∀ k, e.name ≠ "led" ++ natStr k := by
  intro e he k hcontra
  have hmem : e.name ∈ L.map render := hn ▸ List.mem_map_of_mem Entry.name he
  obtain ⟨d, hdL, hrd⟩ := List.mem_map.mp hmem
  have hlr : ("led" ++ natStr k) = render ⟨.bare, .led, k, .bare⟩ := by
    rw [str_eq_iff]
    simp [render, renderL, natStr, Pre.chars, Pfx.chars, Suf.chars, data_append]
  have hde : d = ⟨.bare, .led, k, .bare⟩ := render_injective (by rw [hrd, hcontra, hlr])
  subst hde
  have hb := (hbd _ hdL).2
  simp only [Pfx.str] at hb
  omega

theorem header_name_ne_render (md : NodeDesc) (e : Entry) (he : e ∈ headerEntries md)
    (d : DevName) : e.name ≠ render d := by
  have h6 : e.name ∈ ["core", "core_log", "core_cache", "core_dma",
      "i2c_switch0", "i2c_switch1"] := by
    have h := List.mem_map_of_mem Entry.name he
    rwa [show (headerEntries md).map Entry.name = ["core", "core_log", "core_cache",
      "core_dma", "i2c_switch0", "i2c_switch1"] from rfl] at h
  intro hcontra
  simp only [List.mem_cons, List.not_mem_nil, or_false] at h6
  rcases h6 with h | h | h | h | h | h <;>
    (rw [h] at hcontra; exact render_ne_of_decode_none _ (by decide) d hcontra.symm)

theorem master_no_led (md : NodeDesc) (sats : List (Nat × NodeDesc))
    (hb : md.base = "master") :
    ∀ e ∈ outEntries (process md sats).1, ∀ k, e.name ≠ "led" ++ natStr k := by
  by_cases h3 : md.target = "kasli"
  · rw [process_master_eq md sats hb h3]
    obtain ⟨L1, hn1, hd1, hbd1, hm1⟩ := processNode_names counts0 md 0 md.peripherals
    obtain ⟨L2, c2, hn2, hd2, hbd2, hm2, hl2⟩ :=
      processSats_names (processNode counts0 md 0 md.peripherals).2.2 md sats
    simp only [List.cons_append, outEntries_cons_header, outEntries_cons_comment,
      outEntries_append, outEntries_map_entry]
    intro e he k
    rcases List.mem_append.mp he with h | h
    · intro hcontra
      have hlr : ("led" ++ natStr k) = render ⟨.bare, .led, k, .bare⟩ := by
        rw [str_eq_iff]
        simp [render, renderL, natStr, Pre.chars, Pfx.chars, Suf.chars, data_append]
      exact header_name_ne_render md e h ⟨.bare, .led, k, .bare⟩ (hcontra.trans hlr)
    · rcases List.mem_append.mp h with h2 | h2
      · exact no_led_of_bounds hn1 hbd1 (processNode_led counts0 md 0 md.peripherals) e h2 k
      · have hl0 : c2 "led" = 0 :=
          hl2.trans (processNode_led counts0 md 0 md.peripherals)
        exact no_led_of_bounds hn2 hbd2 hl0 e h2 k
  · rw [process_bad_target md sats (by simp [hb]) (by simp [hb]) h3]
    simp [outEntries]

set_option maxHeartbeats 1000000 in
theorem processPeripheral_first_channel (c : Counts) (md : NodeDesc) (off : Nat)
    (p : Peripheral) :
    ∃ e ∈ (processPeripheral c md off p).1, off ∈ e.channels := by
  cases p with
  | dio lo hi edge =>
    cases lo <;> cases hi <;> cases edge <;>
      simp [processPeripheral, process_dio, getName, dioClassName, Entry.channels,
        List.range_succ, List.filterMap_cons, -List.mem_filterMap]
  | urukul ports sync rc cs dds pv pn =>
    cases dds <;> by_cases hsy : sync <;> by_cases hp : ports.length > 1 <;> cases pv <;>
      simp [processPeripheral, process_urukul, getName, Entry.channels, hsy, hp,
        List.range_succ, List.filterMap_cons, -List.mem_filterMap]
  | mirny rc cs =>
    simp [processPeripheral, process_mirny, getName, Entry.channels, List.range_succ,
      List.filterMap_cons, -List.mem_filterMap]
  | novogorny =>
    simp [processPeripheral, process_novogorny, getName, Entry.channels,
      List.filterMap_cons, -List.mem_filterMap]
  | sampler =>
    simp [processPeripheral, process_sampler, getName, Entry.channels,
      List.filterMap_cons, -List.mem_filterMap]
  | suservo rc cs pv pn =>
    cases pv <;>
      simp [processPeripheral, process_suservo, getName, Entry.channels, List.range_succ,
        List.filterMap_cons, -List.mem_filterMap]
  | zotino =>
    simp [processPeripheral, process_zotino, getName, Entry.channels,
      List.filterMap_cons, -List.mem_filterMap]
  | grabber =>
    simp [processPeripheral, process_grabber, getName, Entry.channels,
      List.filterMap_cons, -List.mem_filterMap]
  | fastino =>
    simp [processPeripheral, process_fastino, getName, Entry.channels,
      List.filterMap_cons, -List.mem_filterMap]
  | phaser =>
    simp [processPeripheral, process_phaser, getName, Entry.channels,
      List.filterMap_cons, -List.mem_filterMap]

theorem header_refs (md : NodeDesc) (e : Entry) (he : e ∈ headerEntries md) :
    e.refs = [] := by
  fin_cases he <;> rfl

theorem sfp_refs (c : Counts) (off : Nat) (e : Entry)
    (he : e ∈ (add_sfp_leds c off).1) : e.refs = [] := by
  rw [add_sfp_leds_eq] at he
  fin_cases he <;> rfl

/-- Claim C1: within one node the orchestrator starts the cursor at the node base address, advances it after each peripheral by exactly the count returned by that peripheral expansion, each expansion only references channels in the half-open interval from its base to base plus count, and hence the channel sets of distinct peripherals of one node are disjoint. -/
theorem claim_C1 (c : Counts) (md : NodeDesc) (off : Nat) (ps : List Peripheral) :
    (processNode c md off ps).1 =
      ((nodeTrace c md off ps).map (fun t => t.2.2)).flatten ∧
    (∀ t, (nodeTrace c md off ps).head? = some t → t.1 = off) ∧
    List.Chain' (fun a b => b.1 = a.1 + a.2.1) (nodeTrace c md off ps) ∧
    (∀ t ∈ nodeTrace c md off ps, ∀ e ∈ t.2.2, ∀ x ∈ e.channels,
      t.1 ≤ x ∧ x < t.1 + t.2.1) ∧
    List.Pairwise
      (fun a b => ∀ e ∈ a.2.2, ∀ e2 ∈ b.2.2, ∀ x ∈ e.channels, ∀ y ∈ e2.channels, x ≠ y)
      (nodeTrace c md off ps) := by
  refine ⟨processNode_eq_trace c md off ps, ?_, nodeTrace_chain c md off ps,
    nodeTrace_inRange c md off ps, ?_⟩
  · cases ps with
    | nil => intro t ht; simp [nodeTrace] at ht
    | cons p ps' =>
      intro t ht
      rw [nodeTrace_cons, List.head?_cons] at ht
      obtain rfl := (Option.some.injEq _ _).mp ht
      rfl
  · refine (nodeTrace_pairwise c md off ps).imp_of_mem ?_
    intro a b ha hb hle e hee e2 he2 x hx y hy
    have h1 := (nodeTrace_inRange c md off ps a ha e hee x hx).2
    have h2 := (nodeTrace_inRange c md off ps b hb e2 he2 y hy).1
    omega

/-- Witness for C1 at a concrete master node with one DIO bank. -/
theorem claim_C1_witness : (0 : Nat) ≤ 3 ∧ (3 : Nat) < 0 + 8 :=
  (claim_C1 counts0 mdMasterDio 0 mdMasterDio.peripherals).2.2.2.1
    (0, 8, (processPeripheral counts0 mdMasterDio 0 (.dio .output .output false)).1)
    (by decide)
    ((processPeripheral counts0 mdMasterDio 0 (.dio .output .output false)).1.getD 3
      defaultEntry)
    (by decide) 3 (by decide)

/-- When a prefix of valid satellites is followed by one with a wrong role,
the prefix is processed and emitted in full and the error is raised only at
the offending satellite. -/
theorem processSats_prefix_invalid (md : NodeDesc) (dest : Nat) (desc : NodeDesc)
    (rest : List (Nat × NodeDesc)) (hbad : desc.base ≠ "satellite") :
    ∀ (pre : List (Nat × NodeDesc)) (c : Counts),
      (∀ s ∈ pre, s.2.base = "satellite") →
      processSats c md (pre ++ (dest, desc) :: rest) =
        ((processSats c md pre).1,
         some ("Invalid base for satellite at destination " ++ natStr dest)) := by
  intro pre
  induction pre with
  | nil =>
    intro c _
    rw [List.nil_append, processSats_cons_invalid c md dest desc rest hbad]
    simp [processSats]
  | cons s pre ih =>
    intro c hall
    obtain ⟨d0, desc0⟩ := s
    have h0 : desc0.base = "satellite" := hall (d0, desc0) (List.mem_cons_self _ _)
    rw [List.cons_append, processSats_cons_valid c md d0 desc0 _ h0,
        processSats_cons_valid c md d0 desc0 pre h0,
        ih _ (fun s hs => hall s (List.mem_cons_of_mem _ hs))]

/-- Counterexample to C2 as stated: a satellite declaring a wrong role is reported only after the header, all fourteen master entries and a preceding valid satellite's entry were already emitted. -/
theorem claim_C2_counterexample :
    (process mdMasterDio [(2, satFastino), (1, badSat)]).2 =
      some "Invalid base for satellite at destination 1" ∧
    outNames (process mdMasterDio [(2, satFastino), (1, badSat)]).1 =
      ["core", "core_log", "core_cache", "core_dma", "i2c_switch0", "i2c_switch1",
       "ttl0", "ttl1", "ttl2", "ttl3", "ttl4", "ttl5", "ttl6", "ttl7", "fastino0"] := by
  decide

/-- Claim C2 (amended): role violations are fatal, but not all are detected before output. A primary whose base is neither standalone nor master aborts with no output, a standalone with satellites aborts with no output, while a satellite with a wrong role is detected only when that satellite is reached: the header, the master entries and every earlier satellite's entries have already been emitted at that point. -/
theorem claim_C2 (md : NodeDesc) (sats : List (Nat × NodeDesc)) :
    (md.base ≠ "standalone" → md.base ≠ "master" →
      process md sats = ([], some "Invalid master base")) ∧
    (md.base = "standalone" → sats ≠ [] →
      process md sats = ([], some "A standalone system cannot have satellites")) ∧
    (∀ (pre : List (Nat × NodeDesc)) (dest : Nat) (desc : NodeDesc)
        (rest : List (Nat × NodeDesc)),
      md.base = "master" → md.target = "kasli" →
      sats = pre ++ (dest, desc) :: rest →
      (∀ s ∈ pre, s.2.base = "satellite") → desc.base ≠ "satellite" →
      process md sats =
        (Item.header (headerEntries md) ::
          Item.comment ("# " ++ md.base ++ " peripherals") ::
          (processNode counts0 md 0 md.peripherals).1.map Item.entry ++
          (processSats (processNode counts0 md 0 md.peripherals).2.2 md pre).1,
         some ("Invalid base for satellite at destination " ++ natStr dest))) := by
  refine ⟨process_invalid_base md sats, process_standalone_sats md sats, ?_⟩
  intro pre dest desc rest hb h3 hsats hall hbad
  subst hsats
  rw [process_master_eq md _ hb h3,
    processSats_prefix_invalid md dest desc rest hbad pre _ hall]

/-- Witness for C2: a wrong-role satellite after one valid satellite, whose entries were emitted before the error; the first conjunct is exercised on a primary declaring the satellite role. -/
theorem claim_C2_witness :
    process mdMasterDio [(2, satFastino), (1, badSat)] =
      (Item.header (headerEntries mdMasterDio) ::
        Item.comment ("# " ++ mdMasterDio.base ++ " peripherals") ::
        (processNode counts0 mdMasterDio 0 mdMasterDio.peripherals).1.map Item.entry ++
        (processSats (processNode counts0 mdMasterDio 0 mdMasterDio.peripherals).2.2
          mdMasterDio [(2, satFastino)]).1,
       some ("Invalid base for satellite at destination " ++ natStr 1)) ∧
    process mdWrongRole [] = ([], some "Invalid master base") :=
  ⟨(claim_C2 mdMasterDio [(2, satFastino), (1, badSat)]).2.2 [(2, satFastino)] 1 badSat []
      rfl rfl rfl (by decide) (by decide),
   (claim_C2 mdWrongRole []).1 (by decide) (by decide)⟩

/-- Counterexample to C3 as stated: a mirny channel entry references its cpld by name before the cpld entry appears in the output sequence. -/
theorem claim_C3_counterexample :
    "mirny0_cpld" ∈ ((outEntries (process mdMirny []).1).getD 11 defaultEntry).refs ∧
      "mirny0_cpld" ∉ ((outEntries (process mdMirny []).1).take 11).map Entry.name := by
  decide

/-- Claim C3 (amended): every name referenced by an emitted entry in its constructor arguments is the name of an entry emitted in the same run, though not necessarily earlier in the output sequence. -/
theorem claim_C3 (md : NodeDesc) (sats : List (Nat × NodeDesc)) :
    ∀ e ∈ outEntries (process md sats).1, ∀ s ∈ e.refs,
      s ∈ outNames (process md sats).1 := by
  by_cases hb1 : md.base = "standalone"
  · by_cases hs : sats = []
    · by_cases h3 : md.target = "kasli"
      · by_cases hl : md.hw_rev = "v1.0" ∨ md.hw_rev = "v1.1"
        · rw [process_standalone_eq md sats hb1 hs h3, if_pos hl]
          simp only [outNames, outEntries_cons_header, outEntries_cons_comment,
            outEntries_append, outEntries_map_entry, List.map_append, List.append_nil]
          intro e he s hs'
          rcases List.mem_append.mp he with h | h
          · rw [header_refs md e h] at hs'
            simp at hs'
          · rcases List.mem_append.mp h with h2 | h2
            · have hn := processNode_refs counts0 md 0 md.peripherals e h2 s hs'
              exact List.mem_append.mpr (Or.inr (List.mem_append.mpr (Or.inl hn)))
            · rw [sfp_refs _ _ e h2] at hs'
              simp at hs'
        · rw [process_standalone_eq md sats hb1 hs h3, if_neg hl]
          simp only [outNames, outEntries_cons_header, outEntries_cons_comment,
            outEntries_append, outEntries_map_entry, List.map_append, List.append_nil]
          intro e he s hs'
          rcases List.mem_append.mp he with h | h
          · rw [header_refs md e h] at hs'
            simp at hs'
          · have hn := processNode_refs counts0 md 0 md.peripherals e h s hs'
            exact List.mem_append.mpr (Or.inr hn)
      · rw [process_bad_target md sats (by simp [hb1]) (by simp [hs]) h3]
        simp [outEntries]
    · rw [process_standalone_sats md sats hb1 hs]
      simp [outEntries]
  · by_cases hb2 : md.base = "master"
    · by_cases h3 : md.target = "kasli"
      · rw [process_master_eq md sats hb2 h3]
        simp only [outNames, List.cons_append, outEntries_cons_header,
          outEntries_cons_comment, outEntries_append, outEntries_map_entry,
          List.map_append]
        intro e he s hs'
        rcases List.mem_append.mp he with h | h
        · rw [header_refs md e h] at hs'
          simp at hs'
        · rcases List.mem_append.mp h with h2 | h2
          · have hn := processNode_refs counts0 md 0 md.peripherals e h2 s hs'
            exact List.mem_append.mpr (Or.inr (List.mem_append.mpr (Or.inl hn)))
          · have hn := processSats_refs (processNode counts0 md 0 md.peripherals).2.2 md
              sats e h2 s hs'
            exact List.mem_append.mpr (Or.inr (List.mem_append.mpr (Or.inr hn)))
      · rw [process_bad_target md sats (by simp [hb2]) (by simp [hb1]) h3]
        simp [outEntries]
    · rw [process_invalid_base md sats hb1 hb2]
      simp [outEntries]

/-- Witness for C3: the forward-referenced mirny cpld name does occur among the run output names. -/
theorem claim_C3_witness : "mirny0_cpld" ∈ outNames (process mdMirny []).1 :=
  claim_C3 mdMirny [] ((outEntries (process mdMirny []).1).getD 11 defaultEntry)
    (by decide) "mirny0_cpld" (by decide)

/-- Counterexample to C4 as stated: the sync one-port urukul expansion consumes 3 addresses, not 6. -/
theorem claim_C4_counterexample :
    (processPeripheral counts0 mdUruSync 0
        (.urukul [0] true none 2 .ad9910 none none)).2.1 = 3 ∧
    (processPeripheral counts0 mdUruSync 0
        (.urukul [0] true none 2 .ad9910 none none)).2.1 ≠ 6 := by
  decide

/-- Claim C4 (amended): a standalone urukul declaration with synchronization and one port yields EEPROM, SPI, clock-gen, io-update, CPLD and four AD9910 channel entries whose arguments include sync_delay_seed stores into the EEPROM, and the expansion consumes 3 addresses, not 6. -/
theorem claim_C4 :
    ((processPeripheral counts0 mdUruSync 0
        (.urukul [0] true none 2 .ad9910 none none)).1.map
        (fun e => (e.name, e.className)) =
      [("eeprom_urukul0", "KasliEEPROM"), ("spi_urukul0", "SPIMaster"),
       ("ttl_urukul0_sync", "TTLClockGen"), ("ttl_urukul0_io_update", "TTLOut"),
       ("urukul0_cpld", "CPLD"), ("urukul0_ch0", "AD9910"), ("urukul0_ch1", "AD9910"),
       ("urukul0_ch2", "AD9910"), ("urukul0_ch3", "AD9910")]) ∧
    ("sync_delay_seed", Arg.store "eeprom_urukul0" 64) ∈
      ((processPeripheral counts0 mdUruSync 0
        (.urukul [0] true none 2 .ad9910 none none)).1.getD 5 defaultEntry).args ∧
    ("sync_delay_seed", Arg.store "eeprom_urukul0" 68) ∈
      ((processPeripheral counts0 mdUruSync 0
        (.urukul [0] true none 2 .ad9910 none none)).1.getD 6 defaultEntry).args ∧
    ("sync_delay_seed", Arg.store "eeprom_urukul0" 72) ∈
      ((processPeripheral counts0 mdUruSync 0
        (.urukul [0] true none 2 .ad9910 none none)).1.getD 7 defaultEntry).args ∧
    ("sync_delay_seed", Arg.store "eeprom_urukul0" 76) ∈
      ((processPeripheral counts0 mdUruSync 0
        (.urukul [0] true none 2 .ad9910 none none)).1.getD 8 defaultEntry).args ∧
    (processPeripheral counts0 mdUruSync 0
        (.urukul [0] true none 2 .ad9910 none none)).2.1 = 3 ∧
    (process mdUruSync []).2 = none := by
  decide

/-- Counterexample to C5 as stated: a DIO bank with both banks input and edge counters enabled consumes 16 addresses, and the counters sit at fresh channel numbers rather than sharing their parents. -/
theorem claim_C5_counterexample :
    (process_dio counts0 0 .input .input true).2.1 = 16 ∧
    (process_dio counts0 0 .input .input true).2.1 ≠ 8 ∧
    ((process_dio counts0 0 .input .input true).1.getD 8 defaultEntry).className =
      "EdgeCounter" ∧
    ((process_dio counts0 0 .input .input true).1.getD 8 defaultEntry).channels = [8] ∧
    ((process_dio counts0 0 .input .input true).1.getD 0 defaultEntry).channels = [0] := by
  decide

/-- Claim C5 (amended): a DIO bank consumes 8 addresses plus one further address per enabled edge-counter sub-device, and all channel numbers in the expansion are pairwise distinct. -/
theorem claim_C5 (c : Counts) (off : Nat) (lo hi : BankDir) (edge : Bool) :
    (process_dio c off lo hi edge).2.1 =
      8 + (if edge then
        (if lo = BankDir.input then 4 else 0) + (if hi = BankDir.input then 4 else 0)
      else 0) ∧
    ((process_dio c off lo hi edge).1.map Entry.channels).flatten.Nodup := by
  refine ⟨dio_count c off lo hi edge, ?_⟩
  cases lo <;> cases hi <;> cases edge <;>
    simp [process_dio, getName, dioClassName, Entry.channels, List.range_succ,
      List.filterMap_cons, -List.mem_filterMap]

/-- Counterexample to C6 as stated: a master node on legacy revision v1.0 gets no LED entries. -/
theorem claim_C6_counterexample :
    mdMasterLegacy.base = "master" ∧ mdMasterLegacy.hw_rev = "v1.0" ∧
    (process mdMasterLegacy [(1, satEmpty)]).2 = none ∧
    outNames (process mdMasterLegacy [(1, satEmpty)]).1 =
      ["core", "core_log", "core_cache", "core_dma", "i2c_switch0", "i2c_switch1"] ∧
    "led0" ∉ outNames (process mdMasterLegacy [(1, satEmpty)]).1 := by
  decide

/-- Claim C6 (amended): the two status-indicator LED entries are appended exactly for a standalone node whose hardware revision is v1.0 or v1.1, at the two addresses following the last peripheral; a master node never receives them, even on a legacy revision. -/
theorem claim_C6 :
    (∀ md : NodeDesc, md.base = "standalone" → md.target = "kasli" →
      process md [] =
        (Item.header (headerEntries md) ::
          Item.comment ("# " ++ md.base ++ " peripherals") ::
          ((processNode counts0 md 0 md.peripherals).1 ++
            (if md.hw_rev = "v1.0" ∨ md.hw_rev = "v1.1" then
              ([{ name := "led0", ty := "local", module := "artiq.coredevice.ttl",
                  className := "TTLOut",
                  args := [("channel",
                    Arg.chan ((processNode counts0 md 0 md.peripherals).2.1 + 0))] },
                { name := "led1", ty := "local", module := "artiq.coredevice.ttl",
                  className := "TTLOut",
                  args := [("channel",
                    Arg.chan ((processNode counts0 md 0 md.peripherals).2.1 + 1))] }] :
                List Entry)
            else [])).map Item.entry,
         none)) ∧
    (∀ md sats, md.base = "master" →
      ∀ e ∈ outEntries (process md sats).1, ∀ k, e.name ≠ "led" ++ natStr k) := by
  constructor
  · intro md hb h3
    rw [process_standalone_eq md [] hb rfl h3]
    have hc : (processNode counts0 md 0 md.peripherals).2.2 "led" = 0 :=
      processNode_led counts0 md 0 md.peripherals
    by_cases hl : md.hw_rev = "v1.0" ∨ md.hw_rev = "v1.1"
    · rw [if_pos hl, if_pos hl, add_sfp_leds_eq, hc]
      have h0 : ("led" ++ natStr 0 : String) = "led0" := by decide
      have h1 : ("led" ++ natStr (0 + 1) : String) = "led1" := by decide
      rw [h0, h1]
    · rw [if_neg hl, if_neg hl]
  · exact fun md sats hb => master_no_led md sats hb

/-- Witness for C6: a standalone legacy node with no peripherals yields exactly the two LED entries at channels 0 and 1. -/
theorem claim_C6_witness :
    process mdStandaloneLegacy [] =
      (Item.header (headerEntries mdStandaloneLegacy) ::
        Item.comment ("# " ++ mdStandaloneLegacy.base ++ " peripherals") ::
        [Item.entry ({ name := "led0", ty := "local",
                       module := "artiq.coredevice.ttl",
                       className := "TTLOut",
                       args := [("channel", Arg.chan 0)] } : Entry),
         Item.entry ({ name := "led1", ty := "local",
                       module := "artiq.coredevice.ttl",
                       className := "TTLOut",
                       args := [("channel", Arg.chan 1)] } : Entry)], none) := by
  rw [claim_C6.1 mdStandaloneLegacy rfl rfl]
  rfl

/-- Claim C7: each satellite node cursor starts at destination times 2 to the 16, independent of what earlier nodes consumed; every peripheral expansion claims its base address, so a satellite at destination 2 has its first address equal to 0x020000. -/
theorem claim_C7 :
    (∀ (c : Counts) (md : NodeDesc) (dest : Nat) (desc : NodeDesc)
        (rest : List (Nat × NodeDesc)), desc.base = "satellite" →
      processSats c md ((dest, desc) :: rest) =
        (Item.comment ("# DEST#" ++ natStr dest ++ " peripherals") ::
          (processNode c md (dest * 65536) desc.peripherals).1.map Item.entry ++
          (processSats (processNode c md (dest * 65536) desc.peripherals).2.2 md rest).1,
         (processSats (processNode c md (dest * 65536) desc.peripherals).2.2 md rest).2)) ∧
    (∀ (c : Counts) (md : NodeDesc) (off : Nat) (p : Peripheral),
      ∃ e ∈ (processPeripheral c md off p).1, off ∈ e.channels) ∧
    (∀ (md : NodeDesc) (sats : List (Nat × NodeDesc)),
      md.base = "master" → md.target = "kasli" →
      process md sats =
        (Item.header (headerEntries md) ::
          Item.comment ("# " ++ md.base ++ " peripherals") ::
          (processNode counts0 md 0 md.peripherals).1.map Item.entry ++
          (processSats (processNode counts0 md 0 md.peripherals).2.2 md sats).1,
         (processSats (processNode counts0 md 0 md.peripherals).2.2 md sats).2)) :=
  ⟨processSats_cons_valid, processPeripheral_first_channel, process_master_eq⟩

/-- Witness for C7: a satellite at destination 2 whose first entry claims channel 131072. -/
theorem claim_C7_witness :
    processSats counts0 mdMasterDio [(2, satFastino)] =
      (Item.comment "# DEST#2 peripherals" ::
        (processNode counts0 mdMasterDio (2 * 65536) satFastino.peripherals).1.map
          Item.entry ++ [],
       none) ∧
    131072 ∈ ((processNode counts0 mdMasterDio (2 * 65536)
      satFastino.peripherals).1.getD 0 defaultEntry).channels := by
  constructor
  · exact (claim_C7.1 counts0 mdMasterDio 2 satFastino [] (by decide)).trans (by decide)
  · decide

/-- Claim C8: the name allocator returns the prefix followed by the number of previous allocations of that exact prefix starting at 0, counters are shared across all nodes of a run, and across an entire run no two emitted entries share a name. -/
theorem claim_C8 :
    (∀ (c : Counts) (ty : String), getName c ty = (ty ++ natStr (c ty), bump c ty)) ∧
    (∀ (md : NodeDesc) (sats : List (Nat × NodeDesc)),
      (outNames (process md sats).1).Nodup) :=
  ⟨fun _ _ => rfl, process_names_nodup⟩

/-- Witness for C8 on a concrete standalone run. -/
theorem claim_C8_witness : (outNames (process mdUruSync []).1).Nodup :=
  claim_C8.2 mdUruSync []

/-- Claim C9: when a urukul declaration omits optional fields the emitted entries use fixed defaults: pll_n is 32 for the ad9910 family and 8 for the ad9912 family, and an omitted refclk defaults to the master description rtio_frequency. -/
theorem claim_C9 (c : Counts) (md : NodeDesc) (off : Nat) (ports : List Nat)
    (sync : Bool) (cs : Nat) (pv : Option Nat) :
    (∀ e ∈ (process_urukul c md off ports sync none cs .ad9910 pv none).1,
      e.className = "CPLD" → ("refclk", Arg.rat md.rtio_frequency) ∈ e.args) ∧
    (∀ e ∈ (process_urukul c md off ports sync none cs .ad9910 pv none).1,
      e.className = "AD9910" → ("pll_n", Arg.nat 32) ∈ e.args) ∧
    (∀ e ∈ (process_urukul c md off ports sync none cs .ad9912 pv none).1,
      e.className = "AD9912" → ("pll_n", Arg.nat 8) ∈ e.args) ∧
    (∀ e ∈ (process_urukul c md off ports sync none cs .ad9912 pv none).1,
      e.className = "CPLD" → ("refclk", Arg.rat md.rtio_frequency) ∈ e.args) := by
  refine ⟨?_, ?_, ?_, ?_⟩ <;>
    (by_cases hsy : sync <;> by_cases hp : ports.length > 1 <;> cases pv <;>
      simp [process_urukul, getName, hsy, hp, List.range_succ])

/-- Witness for C9: the CPLD entry of a concrete urukul expansion carries refclk 125000000. -/
theorem claim_C9_witness :
    ("refclk", Arg.rat (125000000 : ℚ)) ∈
      ((process_urukul counts0 mdUruSync 0 [0] true none 2 .ad9910 none none).1.getD 4
        defaultEntry).args :=
  (claim_C9 counts0 mdUruSync 0 [0] true 2 none).1
    ((process_urukul counts0 mdUruSync 0 [0] true none 2 .ad9910 none none).1.getD 4
      defaultEntry)
    (by decide) (by decide)

/-- Claim C10: if the primary description base is neither standalone nor master, generation fails with Invalid master base and no output is produced. -/
theorem claim_C10 (md : NodeDesc) (sats : List (Nat × NodeDesc))
    (h1 : md.base ≠ "standalone") (h2 : md.base ≠ "master") :
    process md sats = ([], some "Invalid master base") :=
  process_invalid_base md sats h1 h2

/-- Witness for C10 on a primary declaring the satellite role. -/
theorem claim_C10_witness :
    process mdWrongRole [(1, satFastino)] = ([], some "Invalid master base") :=
  claim_C10 mdWrongRole [(1, satFastino)] (by decide) (by decide)

end Ddb
